import Mathlib

/-!
# Type checker of the API specification language

A shallow embedding of `typechecker/Typechecker.cc` and `typechecker/Typechecker.hh`,
together with the part of the AST (`ast.hh`) that the checker reads, and the two
scenarios built by `typechecker/test_typechecker.cc`.

The checker is a C++ object with four mutable fields.  Every member function is
embedded as a function that takes the object's state and returns the new state
(and the returned value, when there is one).
-/

namespace FrontEnd

/-! ## `Typechecker.hh`: types -/

/-- The enumeration `TyKind`. -/
inductive TyKind where
  | Int
  | String
  | Bool
  | Map
  | Void
  | Unknown
  deriving DecidableEq, Repr

/-- The struct `Type`; its constructor defaults the kind to `Unknown`, and
`operator==` compares the kinds. -/
structure Ty where
  kind : TyKind := TyKind.Unknown
  deriving DecidableEq, Repr

instance : Inhabited Ty := ⟨{}⟩

/-! ## `std::unordered_map<std::string, V>` -/

/-- An unordered map with string keys, kept as an association list. -/
abbrev UnorderedMap (V : Type) := List (String × V)

namespace UnorderedMap

variable {V : Type}

/-- The value stored under key `k`, if any. -/
def find : UnorderedMap V → String → Option V
  | [], _ => none
  | (k', v) :: rest, k => if k' = k then some v else find rest k

/-- The member `count(k)`: 1 when the key is present, 0 otherwise. -/
def count (m : UnorderedMap V) (k : String) : Nat :=
  match find m k with
  | some _ => 1
  | none => 0

/-- The assignment `m[k] = v`: overwrites the entry of `k`, or adds one. -/
def assign : UnorderedMap V → String → V → UnorderedMap V
  | [], k, v => [(k, v)]
  | (k', v') :: rest, k, v =>
    if k' = k then (k', v) :: rest else (k', v') :: assign rest k v

/-- The read `m[k]`: the stored value; an absent key is first inserted with a
default-constructed value. -/
def subscript [Inhabited V] (m : UnorderedMap V) (k : String) : V × UnorderedMap V :=
  match find m k with
  | some v => (v, m)
  | none => (default, assign m k default)

end UnorderedMap

/-! ## The AST read by the checker -/

/-- Modelled from the spec: `ast.hh` is not among the sources.  The tag
`typeExpression` of a type expression; the checker only compares it with `MAP_TYPE`. -/
inductive TypeExpression where
  | TYPE_CONST
  | FUNC_TYPE
  | MAP_TYPE
  | TUPLE_TYPE
  | SET_TYPE
  deriving DecidableEq, Repr

/-- Modelled from the spec: `ast.hh` is not among the sources.  Type expressions,
one constructor per class the AST visitor lists (`TypeConst`, `FuncType`, `MapType`,
`TupleType`, `SetType`). -/
inductive TypeExpr where
  | TypeConst (name : String)
  | FuncType (params : List TypeExpr) (returnType : TypeExpr)
  | MapType (domain : TypeExpr) (range : TypeExpr)
  | TupleType (elements : List TypeExpr)
  | SetType (elementType : TypeExpr)
  deriving Repr

/-- The field `typeExpression` of a type expression. -/
def TypeExpr.typeExpression : TypeExpr → TypeExpression
  | .TypeConst _ => .TYPE_CONST
  | .FuncType _ _ => .FUNC_TYPE
  | .MapType _ _ => .MAP_TYPE
  | .TupleType _ => .TUPLE_TYPE
  | .SetType _ => .SET_TYPE

/-- Modelled from the spec: `ast.hh` is not among the sources.  Expressions, one
constructor per class the AST visitor lists (`Var`, `FuncCall`, `Num`, `String`,
`Set`, `Map`, `Tuple`); the checker inspects only the first four. -/
inductive Expr where
  | Var (name : String)
  | FuncCall (name : String) (args : List Expr)
  | Num (value : Int)
  | String (value : String)
  | Set (elements : List Expr)
  | Map (entries : List (Expr × Expr))
  | Tuple (elements : List Expr)
  deriving Repr

/-- Modelled from the spec: `ast.hh` is not among the sources.  A `FuncCall` node on
its own, as held by an `APIcall`: the fields `name` and `args` the checker reads. -/
structure FuncCall where
  name : String
  args : List Expr

/-- Modelled from the spec: `ast.hh` is not among the sources.  The response
codes; only `OK_200` is named in the sources and the checker never reads a code. -/
inductive HTTPResponseCode where
  | OK_200
  | other (code : Nat)
  deriving DecidableEq, Repr

/-- Modelled from the spec: `ast.hh` is not among the sources.  A response: a code and
an optional expression (a null pointer is `none`). -/
structure Response where
  code : HTTPResponseCode
  expr : Option Expr

/-- Modelled from the spec: `ast.hh` is not among the sources.  A global declaration,
with the fields `name` and `type` the checker reads. -/
structure Decl where
  name : String
  type : TypeExpr

/-- Modelled from the spec: `ast.hh` is not among the sources.  A function declaration:
name, parameter types, and the declared return (a response code with type expressions). -/
structure FuncDecl where
  name : String
  params : List TypeExpr
  returnType : HTTPResponseCode × List TypeExpr

/-- Modelled from the spec: `ast.hh` is not among the sources.  An initialisation
`varName = expr`. -/
structure Init where
  varName : String
  expr : Expr

/-- Modelled from the spec: `ast.hh` is not among the sources.  The call of an API block
together with its attached response. -/
structure APIcall where
  call : FuncCall
  response : Response

/-- Modelled from the spec: `ast.hh` is not among the sources.  An API block: optional
precondition, call, response (postcondition). -/
structure API where
  pre : Option Expr
  call : APIcall
  response : Response

/-- Modelled from the spec: `ast.hh` is not among the sources.  The root of the AST. -/
structure Spec where
  globals : List Decl
  init : List Init
  functions : List FuncDecl
  blocks : List API

/-! ## `Typechecker.cc` -/

/-- The fields of the class `Typechecker`. -/
structure Typechecker where
  globals : UnorderedMap Ty
  variableEnv : UnorderedMap Ty
  functionEnv : UnorderedMap (List Ty × Ty)
  errs : List String

/-- The constructor `Typechecker::Typechecker()`: all fields empty. -/
def Typechecker.new : Typechecker := ⟨[], [], [], []⟩

/-- The member `report`: `errs.push_back(msg)`. -/
def report (tc : Typechecker) (msg : String) : Typechecker :=
  { tc with errs := tc.errs ++ [msg] }

/-- The accessor `errors()`. -/
def errors (tc : Typechecker) : List String := tc.errs

/-- The member `typecheckVar`. -/
def typecheckVar (tc : Typechecker) (name : String) : Ty × Typechecker :=
  if tc.variableEnv.count name ≠ 0 then
    let r := tc.variableEnv.subscript name
    (r.1, { tc with variableEnv := r.2 })
  else if tc.globals.count name ≠ 0 then
    let r := tc.globals.subscript name
    (r.1, { tc with globals := r.2 })
  else
    (({} : Ty), report tc ("Undefined variable: " ++ name))

mutual

/-- The member `typecheckExpr`. -/
def typecheckExpr (tc : Typechecker) : Expr → Ty × Typechecker
  | .Var name => typecheckVar tc name
  | .FuncCall name args =>
    if name = "map_access" then typecheckMapAccess tc args
    else if name = "equals" then typecheckBinExpr tc args
    else typecheckFuncCall tc name args
  | .String _ => (⟨TyKind.String⟩, tc)
  | .Num _ => (⟨TyKind.Int⟩, tc)
  | _ => (({} : Ty), report tc "Unknown expression type")
termination_by e => (sizeOf e, 0)

/-- The argument loop of `typecheckFuncCall`, from index `i` on: `args` are the
arguments not yet visited.  The loop runs only when there are as many arguments as
parameter types, so `paramTypes[i]` is always in bounds; the default of `getD` is never
used. -/
def typecheckArgs (tc : Typechecker) (name : String) (paramTypes : List Ty) :
    List Expr → Nat → Typechecker
  | [], _ => tc
  | a :: rest, i =>
    let r := typecheckExpr tc a
    let tc1 :=
      if r.1 ≠ paramTypes.getD i default then
        report r.2 ("Type mismatch in argument " ++ toString (i + 1) ++
          " for function " ++ name)
      else r.2
    typecheckArgs tc1 name paramTypes rest (i + 1)
termination_by args => (sizeOf args, 0)

/-- The member `typecheckFuncCall`. -/
def typecheckFuncCall (tc : Typechecker) (name : String) (args : List Expr) :
    Ty × Typechecker :=
  if tc.functionEnv.count name = 0 then
    (({} : Ty), report tc ("Undefined function: " ++ name))
  else
    let r := tc.functionEnv.subscript name
    let tc0 := { tc with functionEnv := r.2 }
    if args.length ≠ r.1.1.length then
      (({} : Ty), report tc0 ("Arity mismatch for function: " ++ name))
    else
      (r.1.2, typecheckArgs tc0 name r.1.1 args 0)
termination_by (sizeOf args, 1)

/-- The member `typecheckMapAccess`. -/
def typecheckMapAccess (tc : Typechecker) : List Expr → Ty × Typechecker
  | [a, b] =>
    let base := typecheckExpr tc a
    let key := typecheckExpr base.2 b
    let tc1 :=
      if base.1.kind ≠ TyKind.Map then
        report key.2 "First argument to map_access must be a map"
      else key.2
    let tc2 :=
      if key.1.kind ≠ TyKind.String then
        report tc1 "Second argument to map_access must be a string"
      else tc1
    (⟨TyKind.String⟩, tc2)
  | _ => (({} : Ty), report tc "map_access requires exactly 2 arguments")
termination_by args => (sizeOf args, 0)

/-- The member `typecheckBinExpr`. -/
def typecheckBinExpr (tc : Typechecker) : List Expr → Ty × Typechecker
  | [a, b] =>
    let lhs := typecheckExpr tc a
    let rhs := typecheckExpr lhs.2 b
    let tc1 :=
      if lhs.1 ≠ rhs.1 then report rhs.2 "Type mismatch in equality comparison"
      else rhs.2
    (⟨TyKind.Bool⟩, tc1)
  | _ => (({} : Ty), report tc "equals requires exactly 2 arguments")
termination_by args => (sizeOf args, 0)

end

/-- The member `collectGlobals`.  In `variableEnv[init->varName] = typecheckExpr(...)`
the right operand is evaluated before the entry is written. -/
def collectGlobals (tc : Typechecker) (decls : List Decl) (inits : List Init) :
    Typechecker :=
  let tc := { tc with variableEnv := tc.variableEnv.assign "uid" ⟨TyKind.String⟩ }
  let tc := { tc with variableEnv := tc.variableEnv.assign "p" ⟨TyKind.String⟩ }
  let tc := { tc with variableEnv := tc.variableEnv.assign "NIL" ⟨TyKind.String⟩ }
  let tc := { tc with variableEnv := tc.variableEnv.assign "U_prime" ⟨TyKind.Map⟩ }
  let tc := { tc with variableEnv := tc.variableEnv.assign "OK" ⟨TyKind.String⟩ }
  let tc := decls.foldl (fun tc decl =>
    if decl.type.typeExpression = TypeExpression.MAP_TYPE then
      { tc with globals := tc.globals.assign decl.name ⟨TyKind.Map⟩ }
    else
      { tc with globals := tc.globals.assign decl.name ⟨TyKind.String⟩ }) tc
  inits.foldl (fun tc init =>
    let r := typecheckExpr tc init.expr
    { r.2 with variableEnv := r.2.variableEnv.assign init.varName r.1 }) tc

/-- The member `collectFunctions`. -/
def collectFunctions (tc : Typechecker) (funcs : List FuncDecl) : Typechecker :=
  funcs.foldl (fun tc func =>
    let paramTypes : List Ty := func.params.foldl (fun acc _ => acc ++ [⟨TyKind.String⟩]) []
    let returnType : Ty := ⟨TyKind.String⟩
    { tc with functionEnv := tc.functionEnv.assign func.name (paramTypes, returnType) }) tc

/-- The member `checkCall`. -/
def checkCall (tc : Typechecker) (call : APIcall) : Ty × Typechecker :=
  typecheckFuncCall tc call.call.name call.call.args

/-- The member `checkPrecondition`. -/
def checkPrecondition (tc : Typechecker) (pre : Option Expr) : Typechecker :=
  match pre with
  | some e => (typecheckExpr tc e).2
  | none => tc

/-- The member `checkPostcondition`. -/
def checkPostcondition (tc : Typechecker) (post : Response) (callTy : Ty) : Typechecker :=
  let tc1 :=
    if callTy.kind = TyKind.Unknown then
      report tc "Call result type unknown in postcondition"
    else tc
  match post.expr with
  | some e => (typecheckExpr tc1 e).2
  | none => tc1

/-- The member `checkAPIBlock`. -/
def checkAPIBlock (tc : Typechecker) (api : API) : Typechecker :=
  let tc1 := checkPrecondition tc api.pre
  let r := checkCall tc1 api.call
  checkPostcondition r.2 api.response r.1

/-- The member `typeCheckSpec`: the returned boolean and the state left behind. -/
def typeCheckSpec (tc : Typechecker) (spec : Spec) : Bool × Typechecker :=
  let tc := { tc with globals := [] }
  let tc := { tc with variableEnv := [] }
  let tc := { tc with functionEnv := [] }
  let tc := { tc with errs := [] }
  let tc := collectGlobals tc spec.globals spec.init
  let tc := collectFunctions tc spec.functions
  let tc := spec.blocks.foldl (fun tc api => checkAPIBlock tc api) tc
  (tc.errs.isEmpty, tc)

/-! ## `test_typechecker.cc`: the two scenarios -/

/-- The function `createMockASTFromSampleAPI`. -/
def createMockASTFromSampleAPI (makeInvalid : Bool) : Spec :=
  let u_type := TypeExpr.MapType (.TypeConst "string") (.TypeConst "string")
  let globals := [Decl.mk "U" u_type]
  let inits := [Init.mk "uid" (.String "user123"), Init.mk "p" (.String "password"),
    Init.mk "NIL" (.String ""), Init.mk "U_prime" (.Var "U")]
  let signup_args := [TypeExpr.TypeConst "string", TypeExpr.TypeConst "string"]
  let signup_returns := [TypeExpr.TypeConst "string"]
  let funcs := [FuncDecl.mk "signup" signup_args (HTTPResponseCode.OK_200, signup_returns)]
  let pre := Expr.FuncCall "equals"
    [Expr.FuncCall "map_access" [.Var "U", .Var "uid"], .Var "NIL"]
  let call_args := if makeInvalid then [Expr.Var "uid"] else [Expr.Var "uid", Expr.Var "p"]
  let call := FuncCall.mk "signup" call_args
  let apicall := APIcall.mk call (Response.mk HTTPResponseCode.OK_200 (some (.Var "OK")))
  let post := Expr.FuncCall "equals"
    [Expr.FuncCall "map_access" [.Var "U_prime", .Var "uid"], .Var "p"]
  let blocks := [API.mk (some pre) apicall (Response.mk HTTPResponseCode.OK_200 (some post))]
  Spec.mk globals inits funcs blocks

/-! ## Derived definitions: the pure view of a run -/

/-- What `typecheckExpr` does, seen from outside: the returned type `t` and the
appended diagnostics `d` depend only on the environments, which stay as they are. -/
def ExprFrame (e : Expr) : Prop :=
  ∀ g v f, ∃ (t : Ty) (d : List String), ∀ l,
    typecheckExpr ⟨g, v, f, l⟩ e = (t, ⟨g, v, f, l ++ d⟩)

/-- The type `typecheckExpr` returns for `e`. -/
def exprType (tc : Typechecker) (e : Expr) : Ty := (typecheckExpr tc e).1

/-- The diagnostics `typecheckExpr` appends for `e`: those of a run that starts from
an empty list, in the same environments. -/
def exprDiags (tc : Typechecker) (e : Expr) : List String :=
  (typecheckExpr { tc with errs := [] } e).2.errs

/-- The type `typecheckFuncCall` returns. -/
def callType (tc : Typechecker) (name : String) (args : List Expr) : Ty :=
  (typecheckFuncCall tc name args).1

/-- The diagnostics `typecheckFuncCall` appends. -/
def callDiags (tc : Typechecker) (name : String) (args : List Expr) : List String :=
  (typecheckFuncCall { tc with errs := [] } name args).2.errs

/-- The diagnostics the argument loop appends from index `i` on. -/
def argsDiags (tc : Typechecker) (name : String) (paramTypes : List Ty)
    (args : List Expr) (i : Nat) : List String :=
  (typecheckArgs { tc with errs := [] } name paramTypes args i).errs

/-- The diagnostics of an optional expression: none when it is absent. -/
def optDiags (tc : Typechecker) : Option Expr → List String
  | some e => exprDiags tc e
  | none => []

/-- The diagnostics `checkAPIBlock` appends for a block. -/
def blockDiags (tc : Typechecker) (api : API) : List String :=
  (checkAPIBlock { tc with errs := [] } api).errs

/-- The diagnostics of a list of blocks, block after block. -/
def blocksDiags (tc : Typechecker) : List API → List String
  | [] => []
  | b :: bs => blockDiags tc b ++ blocksDiags tc bs

/-- The variables `collectGlobals` seeds before anything else. -/
def standardEnv : UnorderedMap Ty :=
  [("uid", ⟨TyKind.String⟩), ("p", ⟨TyKind.String⟩), ("NIL", ⟨TyKind.String⟩),
    ("U_prime", ⟨TyKind.Map⟩), ("OK", ⟨TyKind.String⟩)]

/-- The type `collectGlobals` records for a declaration. -/
def declType (d : Decl) : Ty :=
  if d.type.typeExpression = TypeExpression.MAP_TYPE then ⟨TyKind.Map⟩ else ⟨TyKind.String⟩

/-- The map of globals after the declaration loop of `collectGlobals`. -/
def declaredGlobals (g : UnorderedMap Ty) (decls : List Decl) : UnorderedMap Ty :=
  decls.foldl (fun g d => g.assign d.name (declType d)) g

/-- The initialiser loop of `collectGlobals`. -/
def runInits (tc : Typechecker) (inits : List Init) : Typechecker :=
  inits.foldl (fun tc init =>
    let r := typecheckExpr tc init.expr
    { r.2 with variableEnv := r.2.variableEnv.assign init.varName r.1 }) tc

/-- The variable environment after the initialiser loop. -/
def initsEnv (tc : Typechecker) : List Init → UnorderedMap Ty
  | [] => tc.variableEnv
  | i :: rest =>
    initsEnv { tc with variableEnv := tc.variableEnv.assign i.varName (exprType tc i.expr) } rest

/-- The diagnostics the initialiser loop appends. -/
def initsDiags (tc : Typechecker) : List Init → List String
  | [] => []
  | i :: rest =>
    exprDiags tc i.expr ++
      initsDiags { tc with variableEnv := tc.variableEnv.assign i.varName (exprType tc i.expr) } rest

/-- The signature `collectFunctions` records for a declaration. -/
def funcSig (d : FuncDecl) : List Ty × Ty :=
  (d.params.foldl (fun acc _ => acc ++ [(⟨TyKind.String⟩ : Ty)]) [], ⟨TyKind.String⟩)

/-- The function table after the loop of `collectFunctions`. -/
def declaredFunctions (f : UnorderedMap (List Ty × Ty)) (funcs : List FuncDecl) :
    UnorderedMap (List Ty × Ty) :=
  funcs.foldl (fun f d => f.assign d.name (funcSig d)) f

/-- The state in which the initialisers of a spec are inferred: seeded variables,
declared globals, no function yet. -/
def initState (spec : Spec) : Typechecker :=
  ⟨declaredGlobals [] spec.globals, standardEnv, [], []⟩

/-- The environments in which the blocks of a spec are checked. -/
def blockState (spec : Spec) : Typechecker :=
  ⟨declaredGlobals [] spec.globals, initsEnv (initState spec) spec.init,
    declaredFunctions [] spec.functions, []⟩

/-- The diagnostics of a whole run. -/
def specDiags (spec : Spec) : List String :=
  initsDiags (initState spec) spec.init ++ blocksDiags (blockState spec) spec.blocks

/-! ## Definitions used to state the properties -/

/-- The mock spec of the test suite with another call and attached response in its
block; globals, initialisers, function declaration, precondition and postcondition are
those of `createMockASTFromSampleAPI`. -/
def mockSpecWith (call : FuncCall) (attached : Option Expr) : Spec :=
  let base := createMockASTFromSampleAPI false
  { base with blocks := base.blocks.map (fun b =>
      { b with call := APIcall.mk call (Response.mk HTTPResponseCode.OK_200 attached) }) }

/-- The environments in which the block of the mock spec is checked. -/
def mockState : Typechecker :=
  ⟨[("U", ⟨TyKind.Map⟩)], standardEnv,
    [("signup", ([⟨TyKind.String⟩, ⟨TyKind.String⟩], ⟨TyKind.String⟩))], []⟩

/-- Conformance of one expression to the stated conditions, in the environments of
`tc`: variables resolve; a call to a user function names an entry of the function table
and has as many arguments as the entry has parameters, each argument standing in the
relation `argOK` to the parameter type at its position; `map_access` has a `Map` and a
`String` operand; `equals` has two operands of equal inferred type.  With `argOK` always
true the argument types are unconstrained; with `argOK` equality each argument has the
declared parameter type. -/
inductive Conforms (argOK : Ty → Ty → Prop) (tc : Typechecker) : Expr → Prop
  | var (name : String)
      (h : tc.variableEnv.find name ≠ none ∨ tc.globals.find name ≠ none) :
      Conforms argOK tc (.Var name)
  | string (s : String) : Conforms argOK tc (.String s)
  | num (n : Int) : Conforms argOK tc (.Num n)
  | mapAccess (a b : Expr) (ha : Conforms argOK tc a) (hb : Conforms argOK tc b)
      (hta : (exprType tc a).kind = TyKind.Map)
      (htb : (exprType tc b).kind = TyKind.String) :
      Conforms argOK tc (.FuncCall "map_access" [a, b])
  | equals (a b : Expr) (ha : Conforms argOK tc a) (hb : Conforms argOK tc b)
      (h : exprType tc a = exprType tc b) :
      Conforms argOK tc (.FuncCall "equals" [a, b])
  | call (name : String) (args : List Expr) (sig : List Ty × Ty)
      (h1 : name ≠ "map_access") (h2 : name ≠ "equals")
      (hf : tc.functionEnv.find name = some sig)
      (hlen : args.length = sig.1.length)
      (hargs : ∀ a ∈ args, Conforms argOK tc a)
      (htys : ∀ i (h : i < args.length),
        argOK (exprType tc (args.get ⟨i, h⟩)) (sig.1.getD i default)) :
      Conforms argOK tc (.FuncCall name args)

/-- Conformance of the initialisers, each in the environments left by the ones before. -/
def InitsConform (argOK : Ty → Ty → Prop) (tc : Typechecker) : List Init → Prop
  | [] => True
  | i :: rest =>
    Conforms argOK tc i.expr ∧
    InitsConform argOK
      { tc with variableEnv := tc.variableEnv.assign i.varName (exprType tc i.expr) } rest

/-- Conformance of the call of an API block, which is resolved through the function
table whatever its name; its result type is not `Unknown`. -/
def CallConforms (argOK : Ty → Ty → Prop) (tc : Typechecker) (c : FuncCall) : Prop :=
  ∃ sig, tc.functionEnv.find c.name = some sig ∧
    c.args.length = sig.1.length ∧
    (∀ a ∈ c.args, Conforms argOK tc a) ∧
    (∀ i (h : i < c.args.length),
      argOK (exprType tc (c.args.get ⟨i, h⟩)) (sig.1.getD i default)) ∧
    (callType tc c.name c.args).kind ≠ TyKind.Unknown

/-- Conformance of an API block. -/
def BlockConforms (argOK : Ty → Ty → Prop) (tc : Typechecker) (b : API) : Prop :=
  (∀ e, b.pre = some e → Conforms argOK tc e) ∧
  CallConforms argOK tc b.call.call ∧
  (∀ e, b.response.expr = some e → Conforms argOK tc e)

/-- Conformance of a spec: its initialisers in the state they are inferred in, its
blocks in the environments built from the spec. -/
def SpecConforms (argOK : Ty → Ty → Prop) (spec : Spec) : Prop :=
  InitsConform argOK (initState spec) spec.init ∧
  ∀ b ∈ spec.blocks, BlockConforms argOK (blockState spec) b

mutual
/-- The number of references to the variable `x` in `e` that inference reaches, given
the function table `f`: the arguments of `map_access` and `equals` are reached when
there are exactly two of them, those of a user function when it is in the table and the
argument count is the declared one; nothing is reached inside other expressions. -/
def inferredRefs (f : UnorderedMap (List Ty × Ty)) (x : String) : Expr → Nat
  | .Var y => if y = x then 1 else 0
  | .FuncCall name args =>
    if name = "map_access" ∨ name = "equals" then
      if args.length = 2 then inferredRefsList f x args else 0
    else
      match f.find name with
      | some sig => if args.length = sig.1.length then inferredRefsList f x args else 0
      | none => 0
  | _ => 0
/-- The sum of `inferredRefs` over a list of arguments. -/
def inferredRefsList (f : UnorderedMap (List Ty × Ty)) (x : String) : List Expr → Nat
  | [] => 0
  | a :: rest => inferredRefs f x a + inferredRefsList f x rest
end

/-- The reached references in an optional expression. -/
def inferredRefsOpt (f : UnorderedMap (List Ty × Ty)) (x : String) : Option Expr → Nat
  | some e => inferredRefs f x e
  | none => 0

/-- The reached references in the call of an API block, which is resolved through the
function table whatever its name. -/
def inferredRefsCall (f : UnorderedMap (List Ty × Ty)) (x : String) (c : FuncCall) : Nat :=
  match f.find c.name with
  | some sig => if c.args.length = sig.1.length then inferredRefsList f x c.args else 0
  | none => 0

/-- The reached references in an API block: precondition, call, postcondition.  The
response attached to the call is not inferred. -/
def inferredRefsBlock (f : UnorderedMap (List Ty × Ty)) (x : String) (b : API) : Nat :=
  inferredRefsOpt f x b.pre + inferredRefsCall f x b.call.call +
    inferredRefsOpt f x b.response.expr

/-- The reached references in a list of blocks. -/
def inferredRefsBlocks (f : UnorderedMap (List Ty × Ty)) (x : String) : List API → Nat
  | [] => 0
  | b :: rest => inferredRefsBlock f x b + inferredRefsBlocks f x rest

/-- The reached references in the initialisers, which are inferred while the function
table is still empty. -/
def inferredRefsInits (x : String) : List Init → Nat
  | [] => 0
  | i :: rest => inferredRefs [] x i.expr + inferredRefsInits x rest

/-- The reached references in a spec. -/
def inferredRefsSpec (spec : Spec) (x : String) : Nat :=
  inferredRefsInits x spec.init +
    inferredRefsBlocks (declaredFunctions [] spec.functions) x spec.blocks

/-- A spec that declares the global `U` twice, first as a map and then as a string,
and the function `signup` twice, first with two parameters and then with one. -/
def redeclaringSpec : Spec :=
  { globals := [Decl.mk "U" (.MapType (.TypeConst "string") (.TypeConst "string")),
      Decl.mk "U" (.TypeConst "string")],
    init := [],
    functions := [
      FuncDecl.mk "signup" [.TypeConst "string", .TypeConst "string"]
        (HTTPResponseCode.OK_200, [.TypeConst "string"]),
      FuncDecl.mk "signup" [.TypeConst "string"]
        (HTTPResponseCode.OK_200, [.TypeConst "string"])],
    blocks := [] }

/-- The environments hold no `Unknown`: no entry of `variableEnv` or of `globals` has
type `Unknown`. -/
def EnvKnown (tc : Typechecker) : Prop :=
  (∀ n t, tc.variableEnv.find n = some t → t.kind ≠ TyKind.Unknown) ∧
  (∀ n t, tc.globals.find n = some t → t.kind ≠ TyKind.Unknown)

/-- The invariant of a run: while the diagnostic list is empty the environments hold no
`Unknown`, and no function of the table has return type `Unknown`. -/
def NoSilentUnknown (tc : Typechecker) : Prop :=
  (tc.errs = [] → EnvKnown tc) ∧
  (∀ n sig, tc.functionEnv.find n = some sig → sig.2.kind ≠ TyKind.Unknown)

/-- The diagnostics that expression inference can append: the forms reported by
`typecheckVar`, by `typecheckFuncCall` (which `typecheckExpr` enters only with a name
other than `map_access` and `equals`), by the two built-ins and by the default case. -/
def ExprMsg (m : String) : Prop :=
  (∃ y, m = "Undefined variable: " ++ y) ∨
  (∃ n, n ≠ "map_access" ∧ n ≠ "equals" ∧ m = "Undefined function: " ++ n) ∨
  (∃ n, m = "Arity mismatch for function: " ++ n) ∨
  (∃ i n, m = "Type mismatch in argument " ++ toString (i + 1) ++ " for function " ++ n) ∨
  m ∈ ["map_access requires exactly 2 arguments",
    "First argument to map_access must be a map",
    "Second argument to map_access must be a string",
    "equals requires exactly 2 arguments",
    "Type mismatch in equality comparison",
    "Unknown expression type"]

/-- Scenario B of the test suite with `signup` declared a second time, now with one
parameter: the block still calls `signup(uid)`. -/
def redeclaredSignupSpec : Spec :=
  { createMockASTFromSampleAPI true with
    functions := [
      FuncDecl.mk "signup" [.TypeConst "string", .TypeConst "string"]
        (HTTPResponseCode.OK_200, [.TypeConst "string"]),
      FuncDecl.mk "signup" [.TypeConst "string"]
        (HTTPResponseCode.OK_200, [.TypeConst "string"])] }

/-! # Theorems -/

/-! ## The unordered map -/

namespace UnorderedMap

variable {V : Type}

theorem find_assign_self (m : UnorderedMap V) (k : String) (v : V) :
    find (assign m k v) k = some v := by
  induction m with
  | nil => simp [assign, find]
  | cons p rest ih =>
    obtain ⟨k', v'⟩ := p
    by_cases h : k' = k
    · simp [assign, find, h]
    · simp [assign, find, h, ih]

theorem find_assign_of_ne (m : UnorderedMap V) {k k' : String} (v : V) (h : k ≠ k') :
    find (assign m k v) k' = find m k' := by
  induction m with
  | nil => simp [assign, find, h]
  | cons p rest ih =>
    obtain ⟨k0, v0⟩ := p
    by_cases h0 : k0 = k
    · subst h0; simp [assign, find, h]
    · by_cases h1 : k0 = k'
      · subst h1; simp [assign, find, h0]
      · simp [assign, find, h0, h1, ih]

end UnorderedMap

/-! ## Induction over expressions -/

theorem Expr.sizeOf_lt_of_mem {a : Expr} {args : List Expr} (h : a ∈ args) :
    sizeOf a < sizeOf args := by
  induction args with
  | nil => cases h
  | cons b rest ih =>
    rcases List.mem_cons.1 h with rfl | h
    · simp only [List.cons.sizeOf_spec]; omega
    · have := ih h
      simp only [List.cons.sizeOf_spec]; omega

/-- Induction over expressions where a call gets the hypothesis for every argument. -/
theorem Expr.induction_on {P : Expr → Prop} (e : Expr)
    (hvar : ∀ name, P (.Var name))
    (hcall : ∀ name args, (∀ a ∈ args, P a) → P (.FuncCall name args))
    (hnum : ∀ n, P (.Num n))
    (hstr : ∀ s, P (.String s))
    (hset : ∀ es, P (.Set es))
    (hmap : ∀ es, P (.Map es))
    (htuple : ∀ es, P (.Tuple es)) : P e := by
  have key : ∀ n : Nat, ∀ e : Expr, sizeOf e = n → P e := by
    intro n
    induction n using Nat.strong_induction_on with
    | _ n ih =>
      intro e he
      cases e with
      | Var name => exact hvar name
      | FuncCall name args =>
        apply hcall
        intro a ha
        have h1 := Expr.sizeOf_lt_of_mem ha
        have h2 : sizeOf (Expr.FuncCall name args) = 1 + sizeOf name + sizeOf args := by
          simp
        exact ih (sizeOf a) (by omega) a rfl
      | Num n => exact hnum n
      | String s => exact hstr s
      | Set es => exact hset es
      | Map es => exact hmap es
      | Tuple es => exact htuple es
  exact key _ e rfl

/-! ## Frame: inference changes nothing but the diagnostic list -/

theorem typecheckVar_frame (name : String) (g v : UnorderedMap Ty)
    (f : UnorderedMap (List Ty × Ty)) :
    ∃ (t : Ty) (d : List String), ∀ l,
      typecheckVar ⟨g, v, f, l⟩ name = (t, ⟨g, v, f, l ++ d⟩) := by
  cases hv : UnorderedMap.find v name with
  | some t =>
    refine ⟨t, [], fun l => ?_⟩
    simp [typecheckVar, UnorderedMap.count, UnorderedMap.subscript, hv]
  | none =>
    cases hg : UnorderedMap.find g name with
    | some t =>
      refine ⟨t, [], fun l => ?_⟩
      simp [typecheckVar, UnorderedMap.count, UnorderedMap.subscript, hv, hg]
    | none =>
      refine ⟨{}, ["Undefined variable: " ++ name], fun l => ?_⟩
      simp [typecheckVar, UnorderedMap.count, hv, hg, report]

theorem typecheckMapAccess_frame (args : List Expr) (ih : ∀ a ∈ args, ExprFrame a)
    (g v : UnorderedMap Ty) (f : UnorderedMap (List Ty × Ty)) :
    ∃ (t : Ty) (d : List String), ∀ l,
      typecheckMapAccess ⟨g, v, f, l⟩ args = (t, ⟨g, v, f, l ++ d⟩) := by
  match args, ih with
  | [], _ => exact ⟨{}, ["map_access requires exactly 2 arguments"], fun l => by simp [typecheckMapAccess, report]⟩
  | [_], _ => exact ⟨{}, ["map_access requires exactly 2 arguments"], fun l => by simp [typecheckMapAccess, report]⟩
  | _ :: _ :: _ :: _, _ => exact ⟨{}, ["map_access requires exactly 2 arguments"], fun l => by simp [typecheckMapAccess, report]⟩
  | [a, b], ih =>
    obtain ⟨ta, da, ha⟩ := ih a (by simp) g v f
    obtain ⟨tb, db, hb⟩ := ih b (by simp) g v f
    refine ⟨⟨TyKind.String⟩, da ++ db ++
      (if ta.kind ≠ TyKind.Map then ["First argument to map_access must be a map"] else []) ++
      (if tb.kind ≠ TyKind.String then ["Second argument to map_access must be a string"]
        else []), fun l => ?_⟩
    simp only [typecheckMapAccess, ha, hb, report]
    by_cases h1 : ta.kind = TyKind.Map <;> by_cases h2 : tb.kind = TyKind.String <;>
      simp [h1, h2]

theorem typecheckBinExpr_frame (args : List Expr) (ih : ∀ a ∈ args, ExprFrame a)
    (g v : UnorderedMap Ty) (f : UnorderedMap (List Ty × Ty)) :
    ∃ (t : Ty) (d : List String), ∀ l,
      typecheckBinExpr ⟨g, v, f, l⟩ args = (t, ⟨g, v, f, l ++ d⟩) := by
  match args, ih with
  | [], _ => exact ⟨{}, ["equals requires exactly 2 arguments"], fun l => by simp [typecheckBinExpr, report]⟩
  | [_], _ => exact ⟨{}, ["equals requires exactly 2 arguments"], fun l => by simp [typecheckBinExpr, report]⟩
  | _ :: _ :: _ :: _, _ => exact ⟨{}, ["equals requires exactly 2 arguments"], fun l => by simp [typecheckBinExpr, report]⟩
  | [a, b], ih =>
    obtain ⟨ta, da, ha⟩ := ih a (by simp) g v f
    obtain ⟨tb, db, hb⟩ := ih b (by simp) g v f
    refine ⟨⟨TyKind.Bool⟩, da ++ db ++
      (if ta ≠ tb then ["Type mismatch in equality comparison"] else []), fun l => ?_⟩
    simp only [typecheckBinExpr, ha, hb, report]
    by_cases h1 : ta = tb <;> simp [h1]

theorem typecheckArgs_frame (name : String) (paramTypes : List Ty) (args : List Expr)
    (ih : ∀ a ∈ args, ExprFrame a)
    (g v : UnorderedMap Ty) (f : UnorderedMap (List Ty × Ty)) (i : Nat) :
    ∃ d : List String, ∀ l,
      typecheckArgs ⟨g, v, f, l⟩ name paramTypes args i = ⟨g, v, f, l ++ d⟩ := by
  induction args generalizing i with
  | nil => exact ⟨[], fun l => by simp [typecheckArgs]⟩
  | cons a rest ihr =>
    obtain ⟨ta, da, ha⟩ := ih a (by simp) g v f
    obtain ⟨dr, hr⟩ := ihr (fun x hx => ih x (by simp [hx])) (i + 1)
    by_cases h : ta = paramTypes[i]?.getD default
    · refine ⟨da ++ dr, fun l => ?_⟩
      rw [typecheckArgs]
      simp [ha, h, hr]
    · refine ⟨da ++ ["Type mismatch in argument " ++ toString (i + 1) ++
        " for function " ++ name] ++ dr, fun l => ?_⟩
      rw [typecheckArgs]
      simp [ha, h, hr, report]

theorem typecheckFuncCall_frame (name : String) (args : List Expr)
    (ih : ∀ a ∈ args, ExprFrame a)
    (g v : UnorderedMap Ty) (f : UnorderedMap (List Ty × Ty)) :
    ∃ (t : Ty) (d : List String), ∀ l,
      typecheckFuncCall ⟨g, v, f, l⟩ name args = (t, ⟨g, v, f, l ++ d⟩) := by
  cases hf : UnorderedMap.find f name with
  | none =>
    refine ⟨{}, ["Undefined function: " ++ name], fun l => ?_⟩
    rw [typecheckFuncCall]
    simp [UnorderedMap.count, hf, report]
  | some sig =>
    by_cases hlen : args.length = sig.1.length
    · obtain ⟨d, hd⟩ := typecheckArgs_frame name sig.1 args ih g v f 0
      refine ⟨sig.2, d, fun l => ?_⟩
      rw [typecheckFuncCall]
      simp [UnorderedMap.count, UnorderedMap.subscript, hf, hlen, hd]
    · refine ⟨{}, ["Arity mismatch for function: " ++ name], fun l => ?_⟩
      rw [typecheckFuncCall]
      simp [UnorderedMap.count, UnorderedMap.subscript, hf, hlen, report]

theorem typecheckExpr_frame (e : Expr) : ExprFrame e := by
  induction e using Expr.induction_on with
  | hvar name =>
    intro g v f
    obtain ⟨t, d, h⟩ := typecheckVar_frame name g v f
    exact ⟨t, d, fun l => by rw [typecheckExpr]; exact h l⟩
  | hcall name args ih =>
    intro g v f
    by_cases h1 : name = "map_access"
    · obtain ⟨t, d, h⟩ := typecheckMapAccess_frame args ih g v f
      exact ⟨t, d, fun l => by rw [typecheckExpr]; simp [h1, h l]⟩
    · by_cases h2 : name = "equals"
      · obtain ⟨t, d, h⟩ := typecheckBinExpr_frame args ih g v f
        exact ⟨t, d, fun l => by rw [typecheckExpr]; simp [h1, h2, h l]⟩
      · obtain ⟨t, d, h⟩ := typecheckFuncCall_frame name args ih g v f
        exact ⟨t, d, fun l => by rw [typecheckExpr]; simp [h1, h2, h l]⟩
  | hnum n => exact fun g v f => ⟨⟨TyKind.Int⟩, [], fun l => by simp [typecheckExpr]⟩
  | hstr s => exact fun g v f => ⟨⟨TyKind.String⟩, [], fun l => by simp [typecheckExpr]⟩
  | hset es => exact fun g v f => ⟨{}, ["Unknown expression type"], fun l => by simp [typecheckExpr, report]⟩
  | hmap es => exact fun g v f => ⟨{}, ["Unknown expression type"], fun l => by simp [typecheckExpr, report]⟩
  | htuple es => exact fun g v f => ⟨{}, ["Unknown expression type"], fun l => by simp [typecheckExpr, report]⟩

/-! ## Lemmas: The pure view of inference: the type and the appended diagnostics -/

theorem typecheckExpr_eq (tc : Typechecker) (e : Expr) :
    typecheckExpr tc e = (exprType tc e, { tc with errs := tc.errs ++ exprDiags tc e }) := by
  obtain ⟨g, v, f, l⟩ := tc
  obtain ⟨t, d, h⟩ := typecheckExpr_frame e g v f
  simp [exprType, exprDiags, h]

theorem exprType_errs (tc : Typechecker) (l : List String) (e : Expr) :
    exprType { tc with errs := l } e = exprType tc e := by
  obtain ⟨g, v, f, l0⟩ := tc
  obtain ⟨t, d, h⟩ := typecheckExpr_frame e g v f
  simp [exprType, h]

theorem exprDiags_errs (tc : Typechecker) (l : List String) (e : Expr) :
    exprDiags { tc with errs := l } e = exprDiags tc e := rfl

theorem typecheckFuncCall_eq (tc : Typechecker) (name : String) (args : List Expr) :
    typecheckFuncCall tc name args =
      (callType tc name args, { tc with errs := tc.errs ++ callDiags tc name args }) := by
  obtain ⟨g, v, f, l⟩ := tc
  obtain ⟨t, d, h⟩ := typecheckFuncCall_frame name args (fun a _ => typecheckExpr_frame a) g v f
  simp [callType, callDiags, h]

theorem callType_errs (tc : Typechecker) (l : List String) (name : String)
    (args : List Expr) : callType { tc with errs := l } name args = callType tc name args := by
  obtain ⟨g, v, f, l0⟩ := tc
  obtain ⟨t, d, h⟩ := typecheckFuncCall_frame name args (fun a _ => typecheckExpr_frame a) g v f
  simp [callType, h]

theorem typecheckArgs_eq (tc : Typechecker) (name : String) (paramTypes : List Ty)
    (args : List Expr) (i : Nat) :
    typecheckArgs tc name paramTypes args i =
      { tc with errs := tc.errs ++ argsDiags tc name paramTypes args i } := by
  obtain ⟨g, v, f, l⟩ := tc
  obtain ⟨d, h⟩ := typecheckArgs_frame name paramTypes args
    (fun a _ => typecheckExpr_frame a) g v f i
  simp [argsDiags, h]

/-! ### Equations of the pure view -/

theorem typecheckVar_eq (tc : Typechecker) (name : String) :
    typecheckVar tc name =
      match tc.variableEnv.find name with
      | some t => (t, tc)
      | none =>
        match tc.globals.find name with
        | some t => (t, tc)
        | none => ({}, { tc with errs := tc.errs ++ ["Undefined variable: " ++ name] }) := by
  cases hv : UnorderedMap.find tc.variableEnv name with
  | some t => simp [typecheckVar, UnorderedMap.count, UnorderedMap.subscript, hv]
  | none =>
    cases hg : UnorderedMap.find tc.globals name with
    | some t => simp [typecheckVar, UnorderedMap.count, UnorderedMap.subscript, hv, hg]
    | none => simp [typecheckVar, UnorderedMap.count, hv, hg, report]

theorem exprType_var (tc : Typechecker) (name : String) :
    exprType tc (.Var name) =
      match tc.variableEnv.find name with
      | some t => t
      | none =>
        match tc.globals.find name with
        | some t => t
        | none => {} := by
  rw [exprType, typecheckExpr, typecheckVar_eq]
  cases tc.variableEnv.find name <;> cases tc.globals.find name <;> rfl

theorem exprDiags_var (tc : Typechecker) (name : String) :
    exprDiags tc (.Var name) =
      match tc.variableEnv.find name with
      | some _ => []
      | none =>
        match tc.globals.find name with
        | some _ => []
        | none => ["Undefined variable: " ++ name] := by
  rw [exprDiags, typecheckExpr, typecheckVar_eq]
  simp only
  cases tc.variableEnv.find name <;> cases tc.globals.find name <;> simp

theorem exprType_string (tc : Typechecker) (s : String) :
    exprType tc (.String s) = ⟨TyKind.String⟩ := by
  simp [exprType, typecheckExpr]

theorem exprDiags_string (tc : Typechecker) (s : String) :
    exprDiags tc (.String s) = [] := by
  simp [exprDiags, typecheckExpr]

theorem exprType_num (tc : Typechecker) (n : Int) :
    exprType tc (.Num n) = ⟨TyKind.Int⟩ := by
  simp [exprType, typecheckExpr]

theorem exprDiags_num (tc : Typechecker) (n : Int) :
    exprDiags tc (.Num n) = [] := by
  simp [exprDiags, typecheckExpr]

theorem typecheckMapAccess_pair (tc : Typechecker) (a b : Expr) :
    typecheckMapAccess tc [a, b] =
      (⟨TyKind.String⟩, { tc with errs := tc.errs ++ exprDiags tc a ++ exprDiags tc b ++
        (if (exprType tc a).kind ≠ TyKind.Map then
          ["First argument to map_access must be a map"] else []) ++
        (if (exprType tc b).kind ≠ TyKind.String then
          ["Second argument to map_access must be a string"] else []) }) := by
  rw [typecheckMapAccess]
  simp only [typecheckExpr_eq tc a, typecheckExpr_eq _ b, exprType_errs, exprDiags_errs, report]
  by_cases h1 : (exprType tc a).kind = TyKind.Map <;>
    by_cases h2 : (exprType tc b).kind = TyKind.String <;> simp [h1, h2]

theorem typecheckMapAccess_other (tc : Typechecker) (args : List Expr)
    (h : args.length ≠ 2) :
    typecheckMapAccess tc args =
      ({}, { tc with errs := tc.errs ++ ["map_access requires exactly 2 arguments"] }) := by
  match args, h with
  | [], _ => simp [typecheckMapAccess, report]
  | [_], _ => simp [typecheckMapAccess, report]
  | [_, _], h => simp at h
  | _ :: _ :: _ :: _, _ => simp [typecheckMapAccess, report]

theorem typecheckBinExpr_pair (tc : Typechecker) (a b : Expr) :
    typecheckBinExpr tc [a, b] =
      (⟨TyKind.Bool⟩, { tc with errs := tc.errs ++ exprDiags tc a ++ exprDiags tc b ++
        (if exprType tc a ≠ exprType tc b then
          ["Type mismatch in equality comparison"] else []) }) := by
  rw [typecheckBinExpr]
  simp only [typecheckExpr_eq tc a, typecheckExpr_eq _ b, exprType_errs, exprDiags_errs, report]
  by_cases h1 : exprType tc a = exprType tc b <;> simp [h1]

theorem typecheckBinExpr_other (tc : Typechecker) (args : List Expr)
    (h : args.length ≠ 2) :
    typecheckBinExpr tc args =
      ({}, { tc with errs := tc.errs ++ ["equals requires exactly 2 arguments"] }) := by
  match args, h with
  | [], _ => simp [typecheckBinExpr, report]
  | [_], _ => simp [typecheckBinExpr, report]
  | [_, _], h => simp at h
  | _ :: _ :: _ :: _, _ => simp [typecheckBinExpr, report]

theorem argsDiags_nil (tc : Typechecker) (name : String) (paramTypes : List Ty) (i : Nat) :
    argsDiags tc name paramTypes [] i = [] := by
  simp [argsDiags, typecheckArgs]

theorem argsDiags_cons (tc : Typechecker) (name : String) (paramTypes : List Ty)
    (a : Expr) (rest : List Expr) (i : Nat) :
    argsDiags tc name paramTypes (a :: rest) i =
      exprDiags tc a ++
      (if exprType tc a ≠ paramTypes.getD i default then
        ["Type mismatch in argument " ++ toString (i + 1) ++ " for function " ++ name]
       else []) ++
      argsDiags tc name paramTypes rest (i + 1) := by
  rw [argsDiags, typecheckArgs]
  simp only [typecheckExpr_eq, exprType_errs, exprDiags_errs, report]
  by_cases h : exprType tc a = paramTypes.getD i default
  · simp only [h, ne_eq, not_true_eq_false, if_false, typecheckArgs_eq]
    simp [argsDiags]
  · simp only [h, ne_eq, not_false_eq_true, if_true, typecheckArgs_eq]
    simp [argsDiags]

/-- The result of `typecheckFuncCall`, by the three cases of the source. -/
theorem typecheckFuncCall_cases (tc : Typechecker) (name : String) (args : List Expr) :
    typecheckFuncCall tc name args =
      match tc.functionEnv.find name with
      | none => ({}, { tc with errs := tc.errs ++ ["Undefined function: " ++ name] })
      | some sig =>
        if args.length ≠ sig.1.length then
          ({}, { tc with errs := tc.errs ++ ["Arity mismatch for function: " ++ name] })
        else
          (sig.2, { tc with errs := tc.errs ++ argsDiags tc name sig.1 args 0 }) := by
  rw [typecheckFuncCall]
  cases hf : UnorderedMap.find tc.functionEnv name with
  | none => simp [UnorderedMap.count, hf, report]
  | some sig =>
    by_cases hlen : args.length = sig.1.length
    · simp only [UnorderedMap.count, UnorderedMap.subscript, hf, hlen, typecheckArgs_eq]
      simp
    · simp [UnorderedMap.count, UnorderedMap.subscript, hf, hlen, report]

theorem callType_eq (tc : Typechecker) (name : String) (args : List Expr) :
    callType tc name args =
      match tc.functionEnv.find name with
      | none => {}
      | some sig => if args.length ≠ sig.1.length then {} else sig.2 := by
  rw [callType, typecheckFuncCall_cases]
  cases tc.functionEnv.find name with
  | none => rfl
  | some sig => by_cases h : args.length = sig.1.length <;> simp [h]

theorem callDiags_eq (tc : Typechecker) (name : String) (args : List Expr) :
    callDiags tc name args =
      match tc.functionEnv.find name with
      | none => ["Undefined function: " ++ name]
      | some sig =>
        if args.length ≠ sig.1.length then ["Arity mismatch for function: " ++ name]
        else argsDiags tc name sig.1 args 0 := by
  rw [callDiags, typecheckFuncCall_cases]
  simp only
  cases tc.functionEnv.find name with
  | none => simp
  | some sig => by_cases h : args.length = sig.1.length <;> simp [h, argsDiags]

/-- The dispatch of `typecheckExpr` on a call node. -/
theorem typecheckExpr_call (tc : Typechecker) (name : String) (args : List Expr) :
    typecheckExpr tc (.FuncCall name args) =
      if name = "map_access" then typecheckMapAccess tc args
      else if name = "equals" then typecheckBinExpr tc args
      else typecheckFuncCall tc name args := by
  rw [typecheckExpr]

theorem exprType_mapAccess (tc : Typechecker) (a b : Expr) :
    exprType tc (.FuncCall "map_access" [a, b]) = ⟨TyKind.String⟩ := by
  simp [exprType, typecheckExpr_call, typecheckMapAccess_pair]

theorem exprDiags_mapAccess (tc : Typechecker) (a b : Expr) :
    exprDiags tc (.FuncCall "map_access" [a, b]) =
      exprDiags tc a ++ exprDiags tc b ++
        (if (exprType tc a).kind ≠ TyKind.Map then
          ["First argument to map_access must be a map"] else []) ++
        (if (exprType tc b).kind ≠ TyKind.String then
          ["Second argument to map_access must be a string"] else []) := by
  simp [exprDiags, typecheckExpr_call, typecheckMapAccess_pair, exprType_errs]

theorem exprType_equals (tc : Typechecker) (a b : Expr) :
    exprType tc (.FuncCall "equals" [a, b]) = ⟨TyKind.Bool⟩ := by
  simp [exprType, typecheckExpr_call, typecheckBinExpr_pair]

theorem exprDiags_equals (tc : Typechecker) (a b : Expr) :
    exprDiags tc (.FuncCall "equals" [a, b]) =
      exprDiags tc a ++ exprDiags tc b ++
        (if exprType tc a ≠ exprType tc b then
          ["Type mismatch in equality comparison"] else []) := by
  simp [exprDiags, typecheckExpr_call, typecheckBinExpr_pair, exprType_errs]

theorem exprType_userCall (tc : Typechecker) (name : String) (args : List Expr)
    (h1 : name ≠ "map_access") (h2 : name ≠ "equals") :
    exprType tc (.FuncCall name args) = callType tc name args := by
  simp [exprType, typecheckExpr_call, h1, h2, callType]

theorem exprDiags_userCall (tc : Typechecker) (name : String) (args : List Expr)
    (h1 : name ≠ "map_access") (h2 : name ≠ "equals") :
    exprDiags tc (.FuncCall name args) = callDiags tc name args := by
  simp [exprDiags, typecheckExpr_call, h1, h2, callDiags]

theorem callDiags_errs (tc : Typechecker) (l : List String) (name : String)
    (args : List Expr) : callDiags { tc with errs := l } name args = callDiags tc name args :=
  rfl

/-! ## Lemmas: API blocks -/

theorem optDiags_errs (tc : Typechecker) (l : List String) (o : Option Expr) :
    optDiags { tc with errs := l } o = optDiags tc o := by
  cases o <;> rfl

theorem checkPrecondition_eq (tc : Typechecker) (pre : Option Expr) :
    checkPrecondition tc pre = { tc with errs := tc.errs ++ optDiags tc pre } := by
  cases pre with
  | none => simp [checkPrecondition, optDiags]
  | some e => simp [checkPrecondition, optDiags, typecheckExpr_eq]

theorem checkPostcondition_eq (tc : Typechecker) (post : Response) (callTy : Ty) :
    checkPostcondition tc post callTy =
      { tc with errs := tc.errs ++
        (if callTy.kind = TyKind.Unknown then ["Call result type unknown in postcondition"]
         else []) ++ optDiags tc post.expr } := by
  unfold checkPostcondition
  by_cases h : callTy.kind = TyKind.Unknown <;> cases hp : post.expr <;>
    simp [h, optDiags, report, typecheckExpr_eq, exprDiags_errs]

theorem checkAPIBlock_eq (tc : Typechecker) (api : API) :
    checkAPIBlock tc api =
      { tc with errs := tc.errs ++ (optDiags tc api.pre ++
        callDiags tc api.call.call.name api.call.call.args ++
        (if (callType tc api.call.call.name api.call.call.args).kind = TyKind.Unknown then
          ["Call result type unknown in postcondition"] else []) ++
        optDiags tc api.response.expr) } := by
  simp only [checkAPIBlock, checkCall, checkPrecondition_eq, typecheckFuncCall_eq,
    checkPostcondition_eq, callType_errs, callDiags_errs, optDiags_errs, List.append_assoc]

theorem blockDiags_eq (tc : Typechecker) (api : API) :
    blockDiags tc api =
      optDiags tc api.pre ++
        callDiags tc api.call.call.name api.call.call.args ++
        (if (callType tc api.call.call.name api.call.call.args).kind = TyKind.Unknown then
          ["Call result type unknown in postcondition"] else []) ++
        optDiags tc api.response.expr := by
  rw [blockDiags, checkAPIBlock_eq]
  simp only [callType_errs, callDiags_errs, optDiags_errs]
  simp

theorem checkAPIBlock_blockDiags (tc : Typechecker) (api : API) :
    checkAPIBlock tc api = { tc with errs := tc.errs ++ blockDiags tc api } := by
  rw [checkAPIBlock_eq, blockDiags_eq]

theorem blockDiags_errs (tc : Typechecker) (l : List String) (api : API) :
    blockDiags { tc with errs := l } api = blockDiags tc api := rfl

theorem blocksDiags_errs (tc : Typechecker) (l : List String) (blocks : List API) :
    blocksDiags { tc with errs := l } blocks = blocksDiags tc blocks := by
  induction blocks with
  | nil => rfl
  | cons b bs ih => simp only [blocksDiags, ih, blockDiags_errs]

theorem blocksDiags_mk (g v : UnorderedMap Ty) (f : UnorderedMap (List Ty × Ty))
    (l : List String) (blocks : List API) :
    blocksDiags ⟨g, v, f, l⟩ blocks = blocksDiags ⟨g, v, f, []⟩ blocks :=
  blocksDiags_errs ⟨g, v, f, []⟩ l blocks

theorem foldl_checkAPIBlock (tc : Typechecker) (blocks : List API) :
    blocks.foldl (fun tc api => checkAPIBlock tc api) tc =
      { tc with errs := tc.errs ++ blocksDiags tc blocks } := by
  induction blocks generalizing tc with
  | nil => simp [blocksDiags]
  | cons b bs ih =>
    rw [List.foldl_cons, ih, checkAPIBlock_blockDiags]
    simp only [blocksDiags, blocksDiags_errs, List.append_assoc]

/-! ## Lemmas: Environment building -/

theorem initsEnv_errs (tc : Typechecker) (l : List String) (inits : List Init) :
    initsEnv { tc with errs := l } inits = initsEnv tc inits := by
  induction inits generalizing tc l with
  | nil => rfl
  | cons i rest ih =>
    simp only [initsEnv, exprType_errs]
    exact ih { tc with variableEnv := tc.variableEnv.assign i.varName (exprType tc i.expr) } l

theorem initsDiags_errs (tc : Typechecker) (l : List String) (inits : List Init) :
    initsDiags { tc with errs := l } inits = initsDiags tc inits := by
  induction inits generalizing tc l with
  | nil => rfl
  | cons i rest ih =>
    simp only [initsDiags, exprType_errs, exprDiags_errs]
    congr 1
    exact ih { tc with variableEnv := tc.variableEnv.assign i.varName (exprType tc i.expr) } l

theorem runInits_eq (tc : Typechecker) (inits : List Init) :
    runInits tc inits =
      { tc with variableEnv := initsEnv tc inits, errs := tc.errs ++ initsDiags tc inits } := by
  induction inits generalizing tc with
  | nil => simp [runInits, initsEnv, initsDiags]
  | cons i rest ih =>
    have h := ih { tc with
      variableEnv := tc.variableEnv.assign i.varName (exprType tc i.expr),
      errs := tc.errs ++ exprDiags tc i.expr }
    simp only [runInits, List.foldl_cons, typecheckExpr_eq] at h ⊢
    rw [h]
    simp only [initsEnv, initsDiags]
    rw [initsEnv_errs { tc with
      variableEnv := tc.variableEnv.assign i.varName (exprType tc i.expr) },
      initsDiags_errs { tc with
      variableEnv := tc.variableEnv.assign i.varName (exprType tc i.expr) }]
    simp

theorem foldl_decls (tc : Typechecker) (decls : List Decl) :
    decls.foldl (fun tc decl =>
      if decl.type.typeExpression = TypeExpression.MAP_TYPE then
        { tc with globals := tc.globals.assign decl.name ⟨TyKind.Map⟩ }
      else
        { tc with globals := tc.globals.assign decl.name ⟨TyKind.String⟩ }) tc =
      { tc with globals := declaredGlobals tc.globals decls } := by
  induction decls generalizing tc with
  | nil => rfl
  | cons d ds ih =>
    simp only [List.foldl_cons, declaredGlobals]
    rw [ih]
    by_cases h : d.type.typeExpression = TypeExpression.MAP_TYPE <;>
      simp [h, declType, declaredGlobals]

theorem collectGlobals_eq (decls : List Decl) (inits : List Init) :
    collectGlobals ⟨[], [], [], []⟩ decls inits =
      runInits ⟨declaredGlobals [] decls, standardEnv, [], []⟩ inits := by
  simp only [collectGlobals, foldl_decls, runInits]
  rfl

theorem collectFunctions_eq (tc : Typechecker) (funcs : List FuncDecl) :
    collectFunctions tc funcs =
      { tc with functionEnv := declaredFunctions tc.functionEnv funcs } := by
  unfold collectFunctions declaredFunctions
  induction funcs generalizing tc with
  | nil => rfl
  | cons d ds ih =>
    simp only [List.foldl_cons]
    rw [ih]
    rfl

theorem typeCheckSpec_eq (tc : Typechecker) (spec : Spec) :
    typeCheckSpec tc spec =
      ((specDiags spec).isEmpty, { blockState spec with errs := specDiags spec }) := by
  simp only [typeCheckSpec, collectGlobals_eq, runInits_eq, collectFunctions_eq,
    foldl_checkAPIBlock]
  simp only [specDiags, blockState, initState, List.nil_append]
  rw [blocksDiags_mk]

/-! ## Evaluation of the two scenarios -/

theorem specDiags_scenarioA : specDiags (createMockASTFromSampleAPI false) = [] := by
  simp [specDiags, initState, blockState, createMockASTFromSampleAPI, declaredGlobals,
    declType, TypeExpr.typeExpression, standardEnv, UnorderedMap.assign, UnorderedMap.find,
    initsEnv, initsDiags, exprType_var, exprDiags_var, exprType_string, exprDiags_string,
    blocksDiags, blockDiags_eq, optDiags, callDiags_eq, callType_eq, argsDiags_cons,
    argsDiags_nil, declaredFunctions, funcSig, exprDiags_equals, exprDiags_mapAccess,
    exprType_mapAccess]

theorem blockState_scenarioB :
    blockState (createMockASTFromSampleAPI true) =
      ⟨[("U", ⟨TyKind.Map⟩)], standardEnv,
        [("signup", ([⟨TyKind.String⟩, ⟨TyKind.String⟩], ⟨TyKind.String⟩))], []⟩ := by
  simp [initState, blockState, createMockASTFromSampleAPI, declaredGlobals,
    declType, TypeExpr.typeExpression, standardEnv, UnorderedMap.assign, UnorderedMap.find,
    initsEnv, exprType_var, exprType_string, declaredFunctions, funcSig]

theorem specDiags_scenarioB :
    specDiags (createMockASTFromSampleAPI true) =
      ["Arity mismatch for function: signup", "Call result type unknown in postcondition"] := by
  simp [specDiags, initState, blockState, createMockASTFromSampleAPI, declaredGlobals,
    declType, TypeExpr.typeExpression, standardEnv, UnorderedMap.assign, UnorderedMap.find,
    initsEnv, initsDiags, exprType_var, exprDiags_var, exprType_string, exprDiags_string,
    blocksDiags, blockDiags_eq, optDiags, callDiags_eq, callType_eq, argsDiags_cons,
    argsDiags_nil, declaredFunctions, funcSig, exprDiags_equals, exprDiags_mapAccess,
    exprType_mapAccess]

/-- Claim C1.  Scenario A of the test suite is accepted: whatever state the checker is in,
`typeCheckSpec` returns true on the valid mock spec and `errors()` is then empty. -/
theorem scenarioA_accepted (tc : Typechecker) :
    (typeCheckSpec tc (createMockASTFromSampleAPI false)).1 = true ∧
    errors (typeCheckSpec tc (createMockASTFromSampleAPI false)).2 = [] := by
  rw [typeCheckSpec_eq, specDiags_scenarioA]
  exact ⟨rfl, rfl⟩

/-- Claim C9.  A run does not depend on the state an earlier run left behind: from any prior
state `typeCheckSpec` gives what it gives on a freshly constructed checker, and running
it a second time on the state left by the first run gives the same boolean and the same
diagnostics. -/
theorem typeCheckSpec_state_independent (tc : Typechecker) (spec : Spec) :
    typeCheckSpec tc spec = typeCheckSpec Typechecker.new spec ∧
    (typeCheckSpec (typeCheckSpec tc spec).2 spec).1 = (typeCheckSpec tc spec).1 ∧
    errors (typeCheckSpec (typeCheckSpec tc spec).2 spec).2 =
      errors (typeCheckSpec tc spec).2 := by
  refine ⟨?_, ?_, ?_⟩ <;> simp only [typeCheckSpec_eq]

/-- Claim C10.  A variable reference is looked up in `variableEnv` first and in `globals`
second; the first hit is the inferred type and nothing is reported; when both miss,
exactly `Undefined variable: <name>` is appended and `Unknown` is returned.  The
environments are the same afterwards in every case. -/
theorem typecheckExpr_var_lookup (tc : Typechecker) (name : String) :
    typecheckExpr tc (.Var name) =
      match tc.variableEnv.find name with
      | some t => (t, tc)
      | none =>
        match tc.globals.find name with
        | some t => (t, tc)
        | none =>
          (⟨TyKind.Unknown⟩,
            { tc with errs := tc.errs ++ ["Undefined variable: " ++ name] }) := by
  rw [typecheckExpr]
  exact typecheckVar_eq tc name

/-- Claim C7.  `map_access` with an argument count other than 2 appends exactly
`map_access requires exactly 2 arguments`, infers no argument and returns `Unknown`;
with two arguments `a`, `b` it appends the diagnostics of `a`, those of `b`, the
first-argument entry iff the type of `a` is not `Map`, the second-argument entry iff the
type of `b` is not `String`, and returns `String`. -/
theorem typecheckExpr_map_access (tc : Typechecker) (args : List Expr) :
    (args.length ≠ 2 →
      typecheckExpr tc (.FuncCall "map_access" args) =
        (⟨TyKind.Unknown⟩,
          { tc with errs := tc.errs ++ ["map_access requires exactly 2 arguments"] })) ∧
    (∀ a b, args = [a, b] →
      typecheckExpr tc (.FuncCall "map_access" args) =
        (⟨TyKind.String⟩,
          { tc with errs := tc.errs ++ exprDiags tc a ++ exprDiags tc b ++
            (if (exprType tc a).kind ≠ TyKind.Map then
              ["First argument to map_access must be a map"] else []) ++
            (if (exprType tc b).kind ≠ TyKind.String then
              ["Second argument to map_access must be a string"] else []) })) := by
  constructor
  · intro h
    rw [typecheckExpr_call, if_pos rfl, typecheckMapAccess_other tc args h]
  · rintro a b rfl
    rw [typecheckExpr_call, if_pos rfl, typecheckMapAccess_pair]

/-- Claim C8.  `equals` with an argument count other than 2 appends exactly
`equals requires exactly 2 arguments` and returns `Unknown`; with two arguments it
appends the diagnostics of the left operand, those of the right operand, one
`Type mismatch in equality comparison` entry iff the two inferred types differ, and
returns `Bool`. -/
theorem typecheckExpr_equals (tc : Typechecker) (args : List Expr) :
    (args.length ≠ 2 →
      typecheckExpr tc (.FuncCall "equals" args) =
        (⟨TyKind.Unknown⟩,
          { tc with errs := tc.errs ++ ["equals requires exactly 2 arguments"] })) ∧
    (∀ a b, args = [a, b] →
      typecheckExpr tc (.FuncCall "equals" args) =
        (⟨TyKind.Bool⟩,
          { tc with errs := tc.errs ++ exprDiags tc a ++ exprDiags tc b ++
            (if exprType tc a ≠ exprType tc b then
              ["Type mismatch in equality comparison"] else []) })) := by
  constructor
  · intro h
    rw [typecheckExpr_call, if_neg (by decide), if_pos rfl, typecheckBinExpr_other tc args h]
  · rintro a b rfl
    rw [typecheckExpr_call, if_neg (by decide), if_pos rfl, typecheckBinExpr_pair]

/-- Claim C7, witness: both branches at concrete arguments, on a fresh checker. -/
theorem typecheckExpr_map_access_witness :
    ([Expr.Num 1].length ≠ 2 ∧
      typecheckExpr Typechecker.new (.FuncCall "map_access" [Expr.Num 1]) =
        (⟨TyKind.Unknown⟩,
          { Typechecker.new with
            errs := Typechecker.new.errs ++ ["map_access requires exactly 2 arguments"] })) ∧
    typecheckExpr Typechecker.new (.FuncCall "map_access" [Expr.Num 1, Expr.Num 2]) =
      (⟨TyKind.String⟩, ⟨[], [], [], ["First argument to map_access must be a map",
        "Second argument to map_access must be a string"]⟩) :=
  ⟨⟨by decide, (typecheckExpr_map_access Typechecker.new [Expr.Num 1]).1 (by decide)⟩, by
    have h := (typecheckExpr_map_access Typechecker.new [Expr.Num 1, Expr.Num 2]).2 _ _ rfl
    simpa [exprDiags_num, exprType_num, Typechecker.new] using h⟩

/-- Claim C8, witness: both branches at concrete arguments, on a fresh checker. -/
theorem typecheckExpr_equals_witness :
    ([Expr.Num 1].length ≠ 2 ∧
      typecheckExpr Typechecker.new (.FuncCall "equals" [Expr.Num 1]) =
        (⟨TyKind.Unknown⟩,
          { Typechecker.new with
            errs := Typechecker.new.errs ++ ["equals requires exactly 2 arguments"] })) ∧
    typecheckExpr Typechecker.new (.FuncCall "equals" [Expr.Num 1, Expr.String "a"]) =
      (⟨TyKind.Bool⟩, ⟨[], [], [], ["Type mismatch in equality comparison"]⟩) :=
  ⟨⟨by decide, (typecheckExpr_equals Typechecker.new [Expr.Num 1]).1 (by decide)⟩, by
    have h := (typecheckExpr_equals Typechecker.new [Expr.Num 1, Expr.String "a"]).2 _ _ rfl
    simpa [exprDiags_num, exprType_num, exprDiags_string, exprType_string,
      Typechecker.new] using h⟩

/-- Claim C4, as the code has it.  A call to a function of the function table with another
argument count appends exactly the arity entry, infers no argument and returns
`Unknown`; an API block with such a call therefore gets
`Call result type unknown in postcondition` right after the arity entry. -/
theorem typecheckFuncCall_arity_mismatch (tc : Typechecker) (name : String)
    (args : List Expr) (sig : List Ty × Ty)
    (hf : tc.functionEnv.find name = some sig) (hlen : args.length ≠ sig.1.length) :
    typecheckFuncCall tc name args =
      (⟨TyKind.Unknown⟩,
        { tc with errs := tc.errs ++ ["Arity mismatch for function: " ++ name] }) ∧
    ∀ api : API, api.call.call = ⟨name, args⟩ →
      checkAPIBlock tc api =
        { tc with errs := tc.errs ++ (optDiags tc api.pre ++
          ["Arity mismatch for function: " ++ name,
            "Call result type unknown in postcondition"] ++
          optDiags tc api.response.expr) } := by
  constructor
  · rw [typecheckFuncCall_cases, hf]
    simp only [hlen, ne_eq, not_false_eq_true, if_true]
  · intro api hcall
    rw [checkAPIBlock_eq, hcall, callDiags_eq, callType_eq, hf]
    simp [hlen]

theorem blockState_mockSpecWith (call : FuncCall) (attached : Option Expr) :
    blockState (mockSpecWith call attached) = mockState := by
  simp [mockSpecWith, mockState, initState, blockState, createMockASTFromSampleAPI,
    declaredGlobals, declType, TypeExpr.typeExpression, standardEnv, UnorderedMap.assign,
    UnorderedMap.find, initsEnv, exprType_var, exprType_string, declaredFunctions, funcSig]

theorem specDiags_mockSpecWith (call : FuncCall) (attached : Option Expr) :
    specDiags (mockSpecWith call attached) =
      callDiags mockState call.name call.args ++
        (if (callType mockState call.name call.args).kind = TyKind.Unknown then
          ["Call result type unknown in postcondition"] else []) := by
  rw [specDiags, blockState_mockSpecWith]
  simp [mockSpecWith, mockState, initState, createMockASTFromSampleAPI, declaredGlobals,
    declType, TypeExpr.typeExpression, standardEnv, UnorderedMap.assign, UnorderedMap.find,
    initsDiags, exprType_var, exprDiags_var, exprType_string, exprDiags_string,
    blocksDiags, blockDiags_eq, optDiags, exprDiags_equals, exprDiags_mapAccess,
    exprType_mapAccess]

/-- Claim C4, counterexample.  In Scenario B the only defect is the arity of `signup(uid)`,
yet the call is inferred as `Unknown`, not as the declared return type, and the run
reports `Call result type unknown in postcondition` after the arity entry. -/
theorem arity_mismatch_call_is_unknown :
    (typecheckFuncCall mockState "signup" [Expr.Var "uid"]).1 = ⟨TyKind.Unknown⟩ ∧
    blockState (createMockASTFromSampleAPI true) = mockState ∧
    errors (typeCheckSpec Typechecker.new (createMockASTFromSampleAPI true)).2 =
      ["Arity mismatch for function: signup",
        "Call result type unknown in postcondition"] := by
  refine ⟨?_, blockState_scenarioB, ?_⟩
  · simp [typecheckFuncCall_cases, mockState, UnorderedMap.find]
  · rw [typeCheckSpec_eq, specDiags_scenarioB]
    rfl

/-- Claim C4, witness: the call `signup(uid)` of Scenario B. -/
theorem typecheckFuncCall_arity_mismatch_witness :
    mockState.functionEnv.find "signup" =
        some ([⟨TyKind.String⟩, ⟨TyKind.String⟩], ⟨TyKind.String⟩) ∧
    [Expr.Var "uid"].length ≠ 2 ∧
    typecheckFuncCall mockState "signup" [Expr.Var "uid"] =
      (⟨TyKind.Unknown⟩,
        { mockState with
          errs := mockState.errs ++ ["Arity mismatch for function: " ++ "signup"] }) :=
  ⟨rfl, by decide,
    (typecheckFuncCall_arity_mismatch mockState "signup" [Expr.Var "uid"]
      ([⟨TyKind.String⟩, ⟨TyKind.String⟩], ⟨TyKind.String⟩) rfl (by decide)).1⟩

/-- Claim C5, counterexample.  With `signup` declared with two parameters, the call
`signup(x)` with an undefined `x` leaves neither `Undefined variable: x` nor
`Type mismatch in argument 1 for function signup` in the diagnostics: the argument is
not inferred. -/
theorem arity_mismatch_skips_arguments :
    errors (typeCheckSpec Typechecker.new
        (mockSpecWith ⟨"signup", [Expr.Var "x"]⟩ (some (Expr.Var "OK")))).2 =
      ["Arity mismatch for function: signup",
        "Call result type unknown in postcondition"] ∧
    exprDiags mockState (Expr.Var "x") = ["Undefined variable: x"] ∧
    exprType mockState (Expr.Var "x") ≠ ⟨TyKind.String⟩ := by
  refine ⟨?_, ?_, ?_⟩
  · rw [typeCheckSpec_eq, specDiags_mockSpecWith]
    simp [errors, callDiags_eq, callType_eq, mockState, UnorderedMap.find]
  · simp [exprDiags_var, mockState, standardEnv, UnorderedMap.find]
  · simp [exprType_var, mockState, standardEnv, UnorderedMap.find]

/-- Claim C5, as the code has it.  For a call to a function of the function table the
arguments are inferred only when the argument count equals the declared parameter
count: then each argument in turn contributes its own diagnostics followed by the
position-wise `Type mismatch in argument <i> for function <name>` entry when its type
differs from the declared one; when the counts differ only the arity entry is
appended. -/
theorem typecheckFuncCall_arguments (tc : Typechecker) (name : String)
    (args : List Expr) (sig : List Ty × Ty)
    (hf : tc.functionEnv.find name = some sig) :
    (args.length ≠ sig.1.length →
      (typecheckFuncCall tc name args).2 =
        { tc with errs := tc.errs ++ ["Arity mismatch for function: " ++ name] }) ∧
    (args.length = sig.1.length →
      (typecheckFuncCall tc name args).2 =
        { tc with errs := tc.errs ++ argsDiags tc name sig.1 args 0 }) ∧
    (∀ i, argsDiags tc name sig.1 [] i = []) ∧
    (∀ a rest i, argsDiags tc name sig.1 (a :: rest) i =
      exprDiags tc a ++
      (if exprType tc a ≠ sig.1.getD i default then
        ["Type mismatch in argument " ++ toString (i + 1) ++ " for function " ++ name]
       else []) ++
      argsDiags tc name sig.1 rest (i + 1)) := by
  refine ⟨fun h => ?_, fun h => ?_, fun i => argsDiags_nil tc name sig.1 i,
    fun a rest i => argsDiags_cons tc name sig.1 a rest i⟩
  · rw [typecheckFuncCall_cases, hf]
    simp only [h, ne_eq, not_false_eq_true, if_true]
  · rw [typecheckFuncCall_cases, hf]
    simp only [h, ne_eq, not_true_eq_false, if_false]

/-- Claim C5, witness: `signup` called with one and with two arguments in the
environments of the mock spec. -/
theorem typecheckFuncCall_arguments_witness :
    mockState.functionEnv.find "signup" =
        some ([⟨TyKind.String⟩, ⟨TyKind.String⟩], ⟨TyKind.String⟩) ∧
    (typecheckFuncCall mockState "signup" [Expr.Var "x"]).2 =
      { mockState with errs := ["Arity mismatch for function: signup"] } ∧
    (typecheckFuncCall mockState "signup" [Expr.Var "x", Expr.Num 3]).2 =
      { mockState with errs := ["Undefined variable: x",
        "Type mismatch in argument 1 for function signup",
        "Type mismatch in argument 2 for function signup"] } := by
  have h := typecheckFuncCall_arguments mockState "signup"
  refine ⟨rfl, ?_, ?_⟩
  · exact (h [Expr.Var "x"] _ rfl).1 (by decide)
  · rw [(h [Expr.Var "x", Expr.Num 3] _ rfl).2.1 rfl]
    simp [argsDiags_cons, argsDiags_nil, exprDiags_var, exprType_var, exprDiags_num,
      exprType_num, mockState, standardEnv, UnorderedMap.find]
    exact ⟨rfl, rfl⟩

/-! ## Lemmas: the function table and the blocks of a spec -/

theorem foldl_push_length {α : Type} (x : Ty) (l : List α) (acc : List Ty) :
    (l.foldl (fun acc _ => acc ++ [x]) acc).length = acc.length + l.length := by
  induction l generalizing acc with
  | nil => simp
  | cons a rest ih => simp [ih]; omega

theorem funcSig_fst_length (d : FuncDecl) : (funcSig d).1.length = d.params.length := by
  simp [funcSig, foldl_push_length]

theorem declaredFunctions_append (f : UnorderedMap (List Ty × Ty))
    (l1 l2 : List FuncDecl) :
    declaredFunctions f (l1 ++ l2) = declaredFunctions (declaredFunctions f l1) l2 := by
  simp [declaredFunctions, List.foldl_append]

theorem find_declaredFunctions_of_not_mem (f : UnorderedMap (List Ty × Ty))
    (funcs : List FuncDecl) (k : String) (h : ∀ d ∈ funcs, d.name ≠ k) :
    UnorderedMap.find (declaredFunctions f funcs) k = UnorderedMap.find f k := by
  induction funcs generalizing f with
  | nil => rfl
  | cons d rest ih =>
    have h1 : d.name ≠ k := h d (by simp)
    have h2 : ∀ d' ∈ rest, d'.name ≠ k := fun d' hd => h d' (by simp [hd])
    show UnorderedMap.find (declaredFunctions (f.assign d.name (funcSig d)) rest) k = _
    rw [ih _ h2, UnorderedMap.find_assign_of_ne _ _ h1]

/-- The function table binds a name to the signature of its last declaration. -/
theorem find_declaredFunctions_last (f : UnorderedMap (List Ty × Ty))
    (before after : List FuncDecl) (d : FuncDecl)
    (hlast : ∀ d' ∈ after, d'.name ≠ d.name) :
    UnorderedMap.find (declaredFunctions f (before ++ d :: after)) d.name =
      some (funcSig d) := by
  rw [declaredFunctions_append]
  show UnorderedMap.find (declaredFunctions
    ((declaredFunctions f before).assign d.name (funcSig d)) after) d.name = _
  rw [find_declaredFunctions_of_not_mem _ _ _ hlast, UnorderedMap.find_assign_self]

theorem blockDiags_subset_blocksDiags (tc : Typechecker) (blocks : List API) (b : API)
    (hb : b ∈ blocks) (m : String) (hm : m ∈ blockDiags tc b) :
    m ∈ blocksDiags tc blocks := by
  induction blocks with
  | nil => cases hb
  | cons b0 rest ih =>
    rcases List.mem_cons.1 hb with rfl | h
    · simp [blocksDiags, hm]
    · simp [blocksDiags, ih h]

/-- Claim C2, as the code has it.  When a block of the spec calls a declared function
with a number of arguments other than the parameter count of the last declaration of
that name (the only declaration when the name is declared once), `typeCheckSpec`
returns false and `errors()` contains `Arity mismatch for function: <name>`. -/
theorem arity_mismatch_rejected (tc : Typechecker) (spec : Spec) (b : API)
    (d : FuncDecl) (before after : List FuncDecl)
    (hb : b ∈ spec.blocks)
    (hfuncs : spec.functions = before ++ d :: after)
    (hlast : ∀ d' ∈ after, d'.name ≠ d.name)
    (hname : b.call.call.name = d.name)
    (hlen : b.call.call.args.length ≠ d.params.length) :
    (typeCheckSpec tc spec).1 = false ∧
    ("Arity mismatch for function: " ++ d.name) ∈ errors (typeCheckSpec tc spec).2 := by
  have hfind : UnorderedMap.find (blockState spec).functionEnv d.name = some (funcSig d) := by
    show UnorderedMap.find (declaredFunctions [] spec.functions) d.name = _
    rw [hfuncs]
    exact find_declaredFunctions_last [] before after d hlast
  have hmem : ("Arity mismatch for function: " ++ d.name) ∈ specDiags spec := by
    apply List.mem_append_right
    apply blockDiags_subset_blocksDiags _ _ b hb
    rw [blockDiags_eq, callDiags_eq, hname, hfind]
    simp [funcSig_fst_length, hlen]
  rw [typeCheckSpec_eq]
  refine ⟨?_, hmem⟩
  cases hs : specDiags spec with
  | nil => rw [hs] at hmem; cases hmem
  | cons x xs => rfl

/-- Claim C2, witness: Scenario B of the test suite. -/
theorem arity_mismatch_rejected_witness :
    (typeCheckSpec Typechecker.new (createMockASTFromSampleAPI true)).1 = false ∧
    ("Arity mismatch for function: " ++ "signup") ∈
      errors (typeCheckSpec Typechecker.new (createMockASTFromSampleAPI true)).2 :=
  arity_mismatch_rejected Typechecker.new (createMockASTFromSampleAPI true)
    ⟨some (Expr.FuncCall "equals"
        [Expr.FuncCall "map_access" [.Var "U", .Var "uid"], .Var "NIL"]),
      ⟨⟨"signup", [Expr.Var "uid"]⟩, ⟨HTTPResponseCode.OK_200, some (.Var "OK")⟩⟩,
      ⟨HTTPResponseCode.OK_200, some (Expr.FuncCall "equals"
        [Expr.FuncCall "map_access" [.Var "U_prime", .Var "uid"], .Var "p"])⟩⟩
    ⟨"signup", [TypeExpr.TypeConst "string", TypeExpr.TypeConst "string"],
      (HTTPResponseCode.OK_200, [TypeExpr.TypeConst "string"])⟩ [] []
    (by simp [createMockASTFromSampleAPI]) rfl (by simp) rfl (by decide)

theorem specDiags_redeclaredSignupSpec : specDiags redeclaredSignupSpec = [] := by
  simp [specDiags, initState, blockState, redeclaredSignupSpec, createMockASTFromSampleAPI,
    declaredGlobals, declType, TypeExpr.typeExpression, standardEnv, UnorderedMap.assign,
    UnorderedMap.find, initsEnv, initsDiags, exprType_var, exprDiags_var, exprType_string,
    exprDiags_string, blocksDiags, blockDiags_eq, optDiags, callDiags_eq, callType_eq,
    argsDiags_cons, argsDiags_nil, declaredFunctions, funcSig, exprDiags_equals,
    exprDiags_mapAccess, exprType_mapAccess]

/-- Claim C2, counterexample.  With `signup` declared with two parameters and then
again with one, the block call `signup(uid)` names a declared function and passes a
number of arguments other than the two of the first declaration, yet the run is
accepted with no diagnostic: the call is compared with the entry of the later
declaration. -/
theorem redeclared_function_call_accepted :
    FuncDecl.mk "signup" [.TypeConst "string", .TypeConst "string"]
      (HTTPResponseCode.OK_200, [.TypeConst "string"]) ∈ redeclaredSignupSpec.functions ∧
    (∀ b ∈ redeclaredSignupSpec.blocks,
      b.call.call.name = "signup" ∧ b.call.call.args.length = 1) ∧
    redeclaredSignupSpec.blocks ≠ [] ∧
    (typeCheckSpec Typechecker.new redeclaredSignupSpec).1 = true ∧
    errors (typeCheckSpec Typechecker.new redeclaredSignupSpec).2 = [] := by
  refine ⟨by simp [redeclaredSignupSpec], ?_, ?_, ?_, ?_⟩
  · intro b hb
    simp only [redeclaredSignupSpec, createMockASTFromSampleAPI, List.mem_singleton] at hb
    subst hb
    exact ⟨rfl, rfl⟩
  · simp [redeclaredSignupSpec, createMockASTFromSampleAPI]
  · rw [typeCheckSpec_eq, specDiags_redeclaredSignupSpec]
    rfl
  · rw [typeCheckSpec_eq, specDiags_redeclaredSignupSpec]
    rfl

/-! ## Lemmas: conforming expressions raise no diagnostic -/

theorem argsDiags_eq_nil (tc : Typechecker) (name : String) (paramTypes : List Ty)
    (args : List Expr) (i : Nat)
    (hd : ∀ a ∈ args, exprDiags tc a = [])
    (ht : ∀ j (h : j < args.length),
      exprType tc (args.get ⟨j, h⟩) = paramTypes.getD (i + j) default) :
    argsDiags tc name paramTypes args i = [] := by
  induction args generalizing i with
  | nil => exact argsDiags_nil tc name paramTypes i
  | cons a rest ih =>
    rw [argsDiags_cons, hd a (by simp)]
    have h0 := ht 0 (by simp)
    simp only [List.get_eq_getElem, List.getElem_cons_zero, Nat.add_zero] at h0
    rw [ih (i + 1) (fun x hx => hd x (by simp [hx])) ?_]
    · simp [h0]
    · intro j hj
      have := ht (j + 1) (by simp; omega)
      simp only [List.get_eq_getElem, List.getElem_cons_succ] at this
      rw [List.get_eq_getElem, this]
      congr 1
      omega

theorem Conforms.exprDiags_eq_nil {tc : Typechecker} {e : Expr}
    (h : Conforms Eq tc e) : exprDiags tc e = [] := by
  induction h with
  | var name h =>
    rw [exprDiags_var]
    cases hv : UnorderedMap.find tc.variableEnv name with
    | some t => rfl
    | none =>
      cases hg : UnorderedMap.find tc.globals name with
      | some t => rfl
      | none => simp [hv, hg] at h
  | string s => exact exprDiags_string tc s
  | num n => exact exprDiags_num tc n
  | mapAccess a b _ _ hta htb iha ihb =>
    rw [exprDiags_mapAccess, iha, ihb]
    simp [hta, htb]
  | equals a b _ _ h iha ihb =>
    rw [exprDiags_equals, iha, ihb]
    simp [h]
  | call name args sig h1 h2 hf hlen _ htys ih =>
    rw [exprDiags_userCall tc name args h1 h2, callDiags_eq, hf]
    simp only [hlen, ne_eq, not_true_eq_false, if_false]
    apply argsDiags_eq_nil _ _ _ _ _ ih
    intro j hj
    rw [htys j hj, Nat.zero_add]

theorem InitsConform.initsDiags_eq_nil {tc : Typechecker} {inits : List Init}
    (h : InitsConform Eq tc inits) : initsDiags tc inits = [] := by
  induction inits generalizing tc with
  | nil => rfl
  | cons i rest ih =>
    obtain ⟨h1, h2⟩ := h
    simp only [initsDiags, h1.exprDiags_eq_nil, ih h2, List.append_nil]

theorem BlockConforms.blockDiags_eq_nil {tc : Typechecker} {b : API}
    (h : BlockConforms Eq tc b) : blockDiags tc b = [] := by
  obtain ⟨hpre, ⟨sig, hf, hlen, hargs, htys, hret⟩, hpost⟩ := h
  have hcall : callDiags tc b.call.call.name b.call.call.args = [] := by
    rw [callDiags_eq, hf]
    simp only [hlen, ne_eq, not_true_eq_false, if_false]
    apply argsDiags_eq_nil _ _ _ _ _ (fun a ha => (hargs a ha).exprDiags_eq_nil)
    intro j hj
    rw [htys j hj, Nat.zero_add]
  have hp : optDiags tc b.pre = [] := by
    cases hb : b.pre with
    | none => rfl
    | some e => exact (hpre e hb).exprDiags_eq_nil
  have hq : optDiags tc b.response.expr = [] := by
    cases hb : b.response.expr with
    | none => rfl
    | some e => exact (hpost e hb).exprDiags_eq_nil
  rw [blockDiags_eq, hcall, hp, hq]
  simp [hret]

theorem blocksDiags_eq_nil (tc : Typechecker) (blocks : List API)
    (h : ∀ b ∈ blocks, blockDiags tc b = []) : blocksDiags tc blocks = [] := by
  induction blocks with
  | nil => rfl
  | cons b rest ih =>
    simp only [blocksDiags, h b (by simp), ih (fun x hx => h x (by simp [hx])),
      List.append_nil]

/-- Claim C3, as the code has it.  A spec is accepted with no diagnostic when, in the
environments in force where each expression is inferred, every inferred expression is
built from variables, literals and calls, every variable resolves, every user-function
call names an entry of the function table with the declared number of arguments and
with every argument of the declared parameter type, every `map_access` has a `Map` and
a `String` operand, every `equals` has two operands of equal type, and the result type
of every API call is not `Unknown`. -/
theorem conforming_spec_accepted (tc : Typechecker) (spec : Spec)
    (h : SpecConforms Eq spec) :
    (typeCheckSpec tc spec).1 = true ∧ errors (typeCheckSpec tc spec).2 = [] := by
  have hd : specDiags spec = [] := by
    rw [specDiags, h.1.initsDiags_eq_nil,
      blocksDiags_eq_nil _ _ (fun b hb => (h.2 b hb).blockDiags_eq_nil)]
    rfl
  rw [typeCheckSpec_eq, hd]
  exact ⟨rfl, rfl⟩

/-! ## The mock spec conforms -/

theorem mockState_var_conforms (argOK : Ty → Ty → Prop) (name : String)
    (h : standardEnv.find name ≠ none ∨ name = "U") :
    Conforms argOK mockState (.Var name) := by
  apply Conforms.var
  rcases h with h | rfl
  · exact Or.inl h
  · exact Or.inr (by simp [mockState, UnorderedMap.find])

theorem mockSpecWith_conforms (argOK : Ty → Ty → Prop) (call : FuncCall)
    (attached : Option Expr) (h : CallConforms argOK mockState call) :
    SpecConforms argOK (mockSpecWith call attached) := by
  constructor
  · refine ⟨Conforms.string _, Conforms.string _, Conforms.string _, Conforms.var "U" ?_,
      trivial⟩
    exact Or.inr (by
      simp [initState, mockSpecWith, createMockASTFromSampleAPI, declaredGlobals, declType,
        TypeExpr.typeExpression, UnorderedMap.assign, UnorderedMap.find])
  · rw [blockState_mockSpecWith]
    intro b hb
    simp only [mockSpecWith, createMockASTFromSampleAPI, List.map_cons, List.map_nil,
      List.mem_singleton] at hb
    subst hb
    refine ⟨?_, h, ?_⟩
    · intro e he
      simp only [Option.some.injEq] at he
      subst he
      refine Conforms.equals _ _ (Conforms.mapAccess _ _ ?_ ?_ ?_ ?_) ?_ ?_
      · exact mockState_var_conforms argOK "U" (Or.inr rfl)
      · exact mockState_var_conforms argOK "uid" (Or.inl (by decide))
      · simp [exprType_var, mockState, standardEnv, UnorderedMap.find]
      · simp [exprType_var, mockState, standardEnv, UnorderedMap.find]
      · exact mockState_var_conforms argOK "NIL" (Or.inl (by decide))
      · simp [exprType_var, exprType_mapAccess, mockState, standardEnv, UnorderedMap.find]
    · intro e he
      simp only [Option.some.injEq] at he
      subst he
      refine Conforms.equals _ _ (Conforms.mapAccess _ _ ?_ ?_ ?_ ?_) ?_ ?_
      · exact mockState_var_conforms argOK "U_prime" (Or.inl (by decide))
      · exact mockState_var_conforms argOK "uid" (Or.inl (by decide))
      · simp [exprType_var, mockState, standardEnv, UnorderedMap.find]
      · simp [exprType_var, mockState, standardEnv, UnorderedMap.find]
      · exact mockState_var_conforms argOK "p" (Or.inl (by decide))
      · simp [exprType_var, exprType_mapAccess, mockState, standardEnv, UnorderedMap.find]

/-- Claim C3, witness: Scenario A of the test suite conforms and is accepted. -/
theorem conforming_spec_accepted_witness :
    SpecConforms Eq (createMockASTFromSampleAPI false) ∧
    (typeCheckSpec Typechecker.new (createMockASTFromSampleAPI false)).1 = true ∧
    errors (typeCheckSpec Typechecker.new (createMockASTFromSampleAPI false)).2 = [] := by
  have h : SpecConforms Eq (createMockASTFromSampleAPI false) := by
    refine mockSpecWith_conforms Eq ⟨"signup", [Expr.Var "uid", Expr.Var "p"]⟩
      (some (Expr.Var "OK")) ⟨([⟨TyKind.String⟩, ⟨TyKind.String⟩], ⟨TyKind.String⟩),
        rfl, rfl, ?_, ?_, ?_⟩
    · intro a ha
      simp only [List.mem_cons, List.mem_singleton, List.not_mem_nil, or_false] at ha
      rcases ha with rfl | rfl
      · exact mockState_var_conforms Eq "uid" (Or.inl (by decide))
      · exact mockState_var_conforms Eq "p" (Or.inl (by decide))
    · intro i hi
      match i, hi with
      | 0, _ => simp [exprType_var, mockState, standardEnv, UnorderedMap.find]
      | 1, _ => simp [exprType_var, mockState, standardEnv, UnorderedMap.find]
    · simp [callType_eq, mockState, UnorderedMap.find]
  exact ⟨h, conforming_spec_accepted Typechecker.new (createMockASTFromSampleAPI false) h⟩

/-- Claim C3, counterexample.  The mock spec with the call `signup(uid, 7)` meets every
condition of the stated property (all references resolve, the argument count is the
declared one, the `map_access` and `equals` operands are well typed, the call's result
is not `Unknown`), yet the run fails with a type mismatch in the second argument. -/
theorem resolving_spec_rejected :
    SpecConforms (fun _ _ => True)
      (mockSpecWith ⟨"signup", [Expr.Var "uid", Expr.Num 7]⟩ (some (Expr.Var "OK"))) ∧
    (typeCheckSpec Typechecker.new
      (mockSpecWith ⟨"signup", [Expr.Var "uid", Expr.Num 7]⟩ (some (Expr.Var "OK")))).1 =
        false ∧
    errors (typeCheckSpec Typechecker.new
      (mockSpecWith ⟨"signup", [Expr.Var "uid", Expr.Num 7]⟩ (some (Expr.Var "OK")))).2 =
        ["Type mismatch in argument 2 for function signup"] := by
  have hd : specDiags
      (mockSpecWith ⟨"signup", [Expr.Var "uid", Expr.Num 7]⟩ (some (Expr.Var "OK"))) =
      ["Type mismatch in argument 2 for function signup"] := by
    rw [specDiags_mockSpecWith]
    simp [callDiags_eq, callType_eq, argsDiags_cons, argsDiags_nil, exprDiags_var,
      exprType_var, exprDiags_num, exprType_num, mockState, standardEnv, UnorderedMap.find]
    rfl
  refine ⟨?_, ?_, ?_⟩
  · refine mockSpecWith_conforms _ _ _ ⟨([⟨TyKind.String⟩, ⟨TyKind.String⟩],
      ⟨TyKind.String⟩), rfl, rfl, ?_, fun _ _ => trivial, ?_⟩
    · intro a ha
      simp only [List.mem_cons, List.mem_singleton, List.not_mem_nil, or_false] at ha
      rcases ha with rfl | rfl
      · exact mockState_var_conforms _ "uid" (Or.inl (by decide))
      · exact Conforms.num 7
    · simp [callType_eq, mockState, UnorderedMap.find]
  · rw [typeCheckSpec_eq, hd]
    rfl
  · rw [typeCheckSpec_eq, hd]
    rfl

/-! ## Lemmas: telling the diagnostics apart -/

theorem msg_prefix_ne (p s x : String) (hp : 11 ≤ p.data.length)
    (h : p.data.take 11 ≠ "Undefined variable: ".data.take 11) :
    p ++ s ≠ "Undefined variable: " ++ x := by
  intro heq
  apply h
  have h1 := congrArg (fun z : String => z.data.take 11) heq
  simp only [String.data_append] at h1
  rw [List.take_append_of_le_length hp, List.take_append_of_le_length (by decide)] at h1
  exact h1

theorem msg_literal_ne (p x : String) (hp : 11 ≤ p.data.length)
    (h : p.data.take 11 ≠ "Undefined variable: ".data.take 11) :
    p ≠ "Undefined variable: " ++ x := by
  have := msg_prefix_ne p "" x hp h
  simpa using this

theorem undefined_variable_msg_inj (x y : String)
    (h : "Undefined variable: " ++ y = "Undefined variable: " ++ x) : y = x := by
  have h1 := congrArg String.data h
  simp only [String.data_append] at h1
  exact String.ext (List.append_cancel_left h1)

theorem type_mismatch_msg_ne (i : Nat) (name x : String) :
    "Type mismatch in argument " ++ toString (i + 1) ++ " for function " ++ name ≠
      "Undefined variable: " ++ x := by
  rw [String.append_assoc, String.append_assoc]
  exact msg_prefix_ne _ _ _ (by decide) (by decide)

theorem count_singleton_of_ne {m a : String} (h : m ≠ a) : List.count a [m] = 0 := by
  simp [List.count_cons, h]

theorem count_cond_of_ne (c : Prop) [Decidable c] {m a : String} (h : m ≠ a) :
    List.count a (if c then [m] else []) = 0 := by
  split
  · exact count_singleton_of_ne h
  · rfl

/-! ## Lemmas: counting the undefined-variable entries -/

theorem exprDiags_mapAccess_other (tc : Typechecker) (args : List Expr)
    (h : args.length ≠ 2) :
    exprDiags tc (.FuncCall "map_access" args) =
      ["map_access requires exactly 2 arguments"] := by
  simp [exprDiags, typecheckExpr_call, typecheckMapAccess_other _ _ h]

theorem exprDiags_equals_other (tc : Typechecker) (args : List Expr)
    (h : args.length ≠ 2) :
    exprDiags tc (.FuncCall "equals" args) = ["equals requires exactly 2 arguments"] := by
  simp [exprDiags, typecheckExpr_call, typecheckBinExpr_other _ _ h]

theorem count_argsDiags (tc : Typechecker) (name : String) (paramTypes : List Ty)
    (x : String) (args : List Expr)
    (ih : ∀ a ∈ args, List.count ("Undefined variable: " ++ x) (exprDiags tc a) =
      inferredRefs tc.functionEnv x a) (i : Nat) :
    List.count ("Undefined variable: " ++ x) (argsDiags tc name paramTypes args i) =
      inferredRefsList tc.functionEnv x args := by
  induction args generalizing i with
  | nil => simp [argsDiags_nil, inferredRefsList]
  | cons a rest ihr =>
    rw [argsDiags_cons]
    simp only [List.count_append]
    rw [ih a (by simp), count_cond_of_ne _ (type_mismatch_msg_ne i name x),
      ihr (fun b hb => ih b (by simp [hb])) (i + 1)]
    simp [inferredRefsList]

theorem count_callDiags (tc : Typechecker) (x : String) (name : String) (args : List Expr)
    (ih : ∀ a ∈ args, List.count ("Undefined variable: " ++ x) (exprDiags tc a) =
      inferredRefs tc.functionEnv x a) :
    List.count ("Undefined variable: " ++ x) (callDiags tc name args) =
      inferredRefsCall tc.functionEnv x ⟨name, args⟩ := by
  rw [callDiags_eq, inferredRefsCall]
  cases hf : UnorderedMap.find tc.functionEnv name with
  | none =>
    simp only
    exact count_singleton_of_ne (msg_prefix_ne _ _ _ (by decide) (by decide))
  | some sig =>
    simp only
    by_cases hlen : args.length = sig.1.length
    · simp only [hlen, ne_eq, not_true_eq_false, if_false, if_true]
      exact count_argsDiags tc name sig.1 x args ih 0
    · simp only [hlen, ne_eq, not_false_eq_true, if_true, if_false]
      exact count_singleton_of_ne (msg_prefix_ne _ _ _ (by decide) (by decide))

theorem count_exprDiags (tc : Typechecker) (x : String)
    (hv : tc.variableEnv.find x = none) (hg : tc.globals.find x = none) (e : Expr) :
    List.count ("Undefined variable: " ++ x) (exprDiags tc e) =
      inferredRefs tc.functionEnv x e := by
  induction e using Expr.induction_on with
  | hvar y =>
    rw [exprDiags_var]
    by_cases hyx : y = x
    · subst hyx
      simp [hv, hg, inferredRefs]
    · have hne : "Undefined variable: " ++ y ≠ "Undefined variable: " ++ x :=
        fun h => hyx (undefined_variable_msg_inj x y h)
      cases UnorderedMap.find tc.variableEnv y <;> cases UnorderedMap.find tc.globals y <;>
        simp [inferredRefs, hyx, count_singleton_of_ne hne]
  | hcall name args ih =>
    by_cases h1 : name = "map_access"
    · subst h1
      by_cases h2 : args.length = 2
      · obtain ⟨a, b, rfl⟩ := List.length_eq_two.1 h2
        rw [exprDiags_mapAccess]
        simp only [List.count_append]
        rw [ih a (by simp), ih b (by simp),
          count_cond_of_ne _ (msg_literal_ne _ _ (by decide) (by decide)),
          count_cond_of_ne _ (msg_literal_ne _ _ (by decide) (by decide))]
        simp [inferredRefs, inferredRefsList]
      · rw [exprDiags_mapAccess_other _ _ h2,
          count_singleton_of_ne (msg_literal_ne _ _ (by decide) (by decide))]
        simp [inferredRefs, h2]
    · by_cases h3 : name = "equals"
      · subst h3
        by_cases h2 : args.length = 2
        · obtain ⟨a, b, rfl⟩ := List.length_eq_two.1 h2
          rw [exprDiags_equals]
          simp only [List.count_append]
          rw [ih a (by simp), ih b (by simp),
            count_cond_of_ne _ (msg_literal_ne _ _ (by decide) (by decide))]
          simp [inferredRefs, inferredRefsList]
        · rw [exprDiags_equals_other _ _ h2,
            count_singleton_of_ne (msg_literal_ne _ _ (by decide) (by decide))]
          simp [inferredRefs, h2]
      · rw [exprDiags_userCall tc name args h1 h3, count_callDiags tc x name args ih]
        simp [inferredRefs, inferredRefsCall, h1, h3]
  | hnum n => simp [exprDiags_num, inferredRefs]
  | hstr s => simp [exprDiags_string, inferredRefs]
  | hset es =>
    have : exprDiags tc (.Set es) = ["Unknown expression type"] := by
      simp [exprDiags, typecheckExpr, report]
    rw [this, count_singleton_of_ne (msg_literal_ne _ _ (by decide) (by decide))]
    simp [inferredRefs]
  | hmap es =>
    have : exprDiags tc (.Map es) = ["Unknown expression type"] := by
      simp [exprDiags, typecheckExpr, report]
    rw [this, count_singleton_of_ne (msg_literal_ne _ _ (by decide) (by decide))]
    simp [inferredRefs]
  | htuple es =>
    have : exprDiags tc (.Tuple es) = ["Unknown expression type"] := by
      simp [exprDiags, typecheckExpr, report]
    rw [this, count_singleton_of_ne (msg_literal_ne _ _ (by decide) (by decide))]
    simp [inferredRefs]

theorem count_optDiags (tc : Typechecker) (x : String)
    (hv : tc.variableEnv.find x = none) (hg : tc.globals.find x = none) (o : Option Expr) :
    List.count ("Undefined variable: " ++ x) (optDiags tc o) =
      inferredRefsOpt tc.functionEnv x o := by
  cases o with
  | none => rfl
  | some e => exact count_exprDiags tc x hv hg e

theorem count_blockDiags (tc : Typechecker) (x : String)
    (hv : tc.variableEnv.find x = none) (hg : tc.globals.find x = none) (b : API) :
    List.count ("Undefined variable: " ++ x) (blockDiags tc b) =
      inferredRefsBlock tc.functionEnv x b := by
  rw [blockDiags_eq]
  simp only [List.count_append]
  rw [count_optDiags tc x hv hg, count_optDiags tc x hv hg,
    count_callDiags tc x _ _ (fun a _ => count_exprDiags tc x hv hg a),
    count_cond_of_ne _ (msg_literal_ne _ _ (by decide) (by decide))]
  simp [inferredRefsBlock]

theorem count_blocksDiags (tc : Typechecker) (x : String)
    (hv : tc.variableEnv.find x = none) (hg : tc.globals.find x = none)
    (blocks : List API) :
    List.count ("Undefined variable: " ++ x) (blocksDiags tc blocks) =
      inferredRefsBlocks tc.functionEnv x blocks := by
  induction blocks with
  | nil => rfl
  | cons b rest ih =>
    simp only [blocksDiags, inferredRefsBlocks, List.count_append, ih,
      count_blockDiags tc x hv hg b]

theorem UnorderedMap.find_assign_eq_none {V : Type} (m : UnorderedMap V) (k x : String)
    (v : V) (h : UnorderedMap.find (UnorderedMap.assign m k v) x = none) :
    UnorderedMap.find m x = none := by
  by_cases hk : k = x
  · subst hk
    rw [UnorderedMap.find_assign_self] at h
    cases h
  · rwa [UnorderedMap.find_assign_of_ne m v hk] at h

theorem find_initsEnv_eq_none (tc : Typechecker) (inits : List Init) (x : String)
    (h : UnorderedMap.find (initsEnv tc inits) x = none) :
    UnorderedMap.find tc.variableEnv x = none := by
  induction inits generalizing tc with
  | nil => exact h
  | cons i rest ih =>
    exact UnorderedMap.find_assign_eq_none _ _ _ _ (ih _ h)

theorem count_initsDiags (tc : Typechecker) (x : String) (inits : List Init)
    (hf : tc.functionEnv = [])
    (hv : UnorderedMap.find (initsEnv tc inits) x = none)
    (hg : tc.globals.find x = none) :
    List.count ("Undefined variable: " ++ x) (initsDiags tc inits) =
      inferredRefsInits x inits := by
  induction inits generalizing tc with
  | nil => rfl
  | cons i rest ih =>
    have hv0 := find_initsEnv_eq_none tc (i :: rest) x hv
    have h1 := count_exprDiags tc x hv0 hg i.expr
    have h2 := ih { tc with
      variableEnv := tc.variableEnv.assign i.varName (exprType tc i.expr) } hf hv hg
    rw [hf] at h1
    simp only [initsDiags, inferredRefsInits, List.count_append, h1, h2]

/-- Claim C6, as the code has it.  For a variable `x` bound in neither `variableEnv` nor
`globals` when environment building ends, `errors()` holds exactly one
`Undefined variable: x` entry per reference to `x` that inference reaches (in
initialisers, preconditions, postconditions and the arguments of calls that are
inferred), without deduplication, and `typeCheckSpec` returns false as soon as there is
one such reference.  References in the response attached to a call, in the arguments of
a call that is not inferred, or inside other expression kinds are not reached. -/
theorem undefined_variable_entries (tc : Typechecker) (spec : Spec) (x : String)
    (hv : (blockState spec).variableEnv.find x = none)
    (hg : (blockState spec).globals.find x = none) :
    List.count ("Undefined variable: " ++ x) (errors (typeCheckSpec tc spec).2) =
      inferredRefsSpec spec x ∧
    (0 < inferredRefsSpec spec x → (typeCheckSpec tc spec).1 = false) := by
  have hcount : List.count ("Undefined variable: " ++ x) (specDiags spec) =
      inferredRefsSpec spec x := by
    rw [specDiags, List.count_append, count_initsDiags (initState spec) x spec.init rfl hv hg,
      count_blocksDiags (blockState spec) x hv hg]
    rfl
  rw [typeCheckSpec_eq]
  refine ⟨hcount, fun hpos => ?_⟩
  cases hs : specDiags spec with
  | nil => rw [hs] at hcount; simp at hcount; omega
  | cons m ms => rfl

/-- Claim C6, counterexample.  The mock spec whose call carries the attached response `x`
references a variable bound in neither environment, yet the run succeeds with no
diagnostic: the attached response of a call is never inferred. -/
theorem undefined_variable_unreported :
    (blockState (mockSpecWith ⟨"signup", [Expr.Var "uid", Expr.Var "p"]⟩
      (some (Expr.Var "x")))).variableEnv.find "x" = none ∧
    (blockState (mockSpecWith ⟨"signup", [Expr.Var "uid", Expr.Var "p"]⟩
      (some (Expr.Var "x")))).globals.find "x" = none ∧
    (typeCheckSpec Typechecker.new (mockSpecWith ⟨"signup", [Expr.Var "uid", Expr.Var "p"]⟩
      (some (Expr.Var "x")))).1 = true ∧
    errors (typeCheckSpec Typechecker.new
      (mockSpecWith ⟨"signup", [Expr.Var "uid", Expr.Var "p"]⟩
        (some (Expr.Var "x")))).2 = [] := by
  have hd : specDiags (mockSpecWith ⟨"signup", [Expr.Var "uid", Expr.Var "p"]⟩
      (some (Expr.Var "x"))) = [] := by
    rw [specDiags_mockSpecWith]
    simp [callDiags_eq, callType_eq, argsDiags_cons, argsDiags_nil, exprDiags_var,
      exprType_var, mockState, standardEnv, UnorderedMap.find]
  rw [blockState_mockSpecWith, typeCheckSpec_eq, hd]
  exact ⟨by decide, by decide, rfl, rfl⟩

/-- Claim C6, witness: the call `signup(x, x)` with attached response `x` yields two
entries, one per argument, and the run fails. -/
theorem undefined_variable_entries_witness :
    (blockState (mockSpecWith ⟨"signup", [Expr.Var "x", Expr.Var "x"]⟩
      (some (Expr.Var "x")))).variableEnv.find "x" = none ∧
    (blockState (mockSpecWith ⟨"signup", [Expr.Var "x", Expr.Var "x"]⟩
      (some (Expr.Var "x")))).globals.find "x" = none ∧
    List.count ("Undefined variable: " ++ "x")
      (errors (typeCheckSpec Typechecker.new
        (mockSpecWith ⟨"signup", [Expr.Var "x", Expr.Var "x"]⟩
          (some (Expr.Var "x")))).2) = 2 ∧
    (typeCheckSpec Typechecker.new (mockSpecWith ⟨"signup", [Expr.Var "x", Expr.Var "x"]⟩
      (some (Expr.Var "x")))).1 = false := by
  have hv : (blockState (mockSpecWith ⟨"signup", [Expr.Var "x", Expr.Var "x"]⟩
      (some (Expr.Var "x")))).variableEnv.find "x" = none := by
    rw [blockState_mockSpecWith]; decide
  have hg : (blockState (mockSpecWith ⟨"signup", [Expr.Var "x", Expr.Var "x"]⟩
      (some (Expr.Var "x")))).globals.find "x" = none := by
    rw [blockState_mockSpecWith]; decide
  have hn : inferredRefsSpec (mockSpecWith ⟨"signup", [Expr.Var "x", Expr.Var "x"]⟩
      (some (Expr.Var "x"))) "x" = 2 := by decide
  have h := undefined_variable_entries Typechecker.new
    (mockSpecWith ⟨"signup", [Expr.Var "x", Expr.Var "x"]⟩ (some (Expr.Var "x"))) "x" hv hg
  exact ⟨hv, hg, by rw [h.1, hn], h.2 (by rw [hn]; decide)⟩

/-! ## Lemmas: the state built by `collectGlobals` -/

theorem collectGlobals_new (decls : List Decl) (inits : List Init) :
    collectGlobals Typechecker.new decls inits =
      ⟨declaredGlobals [] decls, initsEnv ⟨declaredGlobals [] decls, standardEnv, [], []⟩ inits,
        [], initsDiags ⟨declaredGlobals [] decls, standardEnv, [], []⟩ inits⟩ := by
  show collectGlobals ⟨[], [], [], []⟩ decls inits = _
  rw [collectGlobals_eq, runInits_eq]
  rfl

theorem initsEnv_append (tc : Typechecker) (before after : List Init) :
    initsEnv tc (before ++ after) =
      initsEnv { tc with variableEnv := initsEnv tc before } after := by
  induction before generalizing tc with
  | nil => rfl
  | cons i rest ih =>
    simp only [List.cons_append, initsEnv]
    exact ih { tc with variableEnv := tc.variableEnv.assign i.varName (exprType tc i.expr) }

theorem initsDiags_append (tc : Typechecker) (before after : List Init) :
    initsDiags tc (before ++ after) =
      initsDiags tc before ++
        initsDiags { tc with variableEnv := initsEnv tc before } after := by
  induction before generalizing tc with
  | nil => rfl
  | cons i rest ih =>
    simp only [List.cons_append, initsDiags, initsEnv, List.append_assoc]
    congr 1
    exact ih { tc with variableEnv := tc.variableEnv.assign i.varName (exprType tc i.expr) }

theorem blocksDiags_append (tc : Typechecker) (bs1 bs2 : List API) :
    blocksDiags tc (bs1 ++ bs2) = blocksDiags tc bs1 ++ blocksDiags tc bs2 := by
  induction bs1 with
  | nil => rfl
  | cons b rest ih =>
    show blockDiags tc b ++ blocksDiags tc (rest ++ bs2) = _
    rw [ih]
    simp only [blocksDiags, List.append_assoc]

/-- The state after any number of blocks of a run. -/
theorem foldl_blocks_built (spec : Spec) (bs : List API) :
    bs.foldl (fun s api => checkAPIBlock s api)
        (collectFunctions (collectGlobals Typechecker.new spec.globals spec.init)
          spec.functions) =
      { blockState spec with
        errs := initsDiags (initState spec) spec.init ++ blocksDiags (blockState spec) bs } := by
  rw [foldl_checkAPIBlock, collectFunctions_eq, collectGlobals_new]
  simp only [blocksDiags_mk]
  rfl

/-- The explicit list of diagnostics of the argument loop. -/
theorem argsDiags_eq_flatMap (tc : Typechecker) (name : String) (paramTypes : List Ty)
    (args : List Expr) (i : Nat) :
    argsDiags tc name paramTypes args i =
      (args.enumFrom i).flatMap (fun p =>
        exprDiags tc p.2 ++
          (if exprType tc p.2 ≠ paramTypes.getD p.1 default then
            ["Type mismatch in argument " ++ toString (p.1 + 1) ++ " for function " ++ name]
           else [])) := by
  induction args generalizing i with
  | nil => simp [argsDiags_nil]
  | cons a rest ih =>
    rw [argsDiags_cons, ih (i + 1)]
    simp [List.enumFrom_cons, List.flatMap_cons]

/-- Claim C14.  The diagnostics of a run are those of the initialisers followed by
those of the blocks in declared order, `blocksDiags` concatenating the `blockDiags` of
the blocks one after the other; the diagnostics a block appends under the environments
built from the spec are the same whatever list earlier initialisers and blocks have
left, so no block is skipped or influenced by another. -/
theorem typeCheckSpec_diagnostics_in_order (tc : Typechecker) (spec : Spec) :
    errors (typeCheckSpec tc spec).2 =
      (collectGlobals Typechecker.new spec.globals spec.init).errs ++
        blocksDiags (blockState spec) spec.blocks ∧
    blocksDiags (blockState spec) [] = [] ∧
    (∀ b bs, blocksDiags (blockState spec) (b :: bs) =
      blockDiags (blockState spec) b ++ blocksDiags (blockState spec) bs) ∧
    (∀ b l, checkAPIBlock { blockState spec with errs := l } b =
      { blockState spec with errs := l ++ blockDiags (blockState spec) b }) ∧
    (∀ bs, bs.foldl (fun s api => checkAPIBlock s api)
        (collectFunctions (collectGlobals Typechecker.new spec.globals spec.init)
          spec.functions) =
      { blockState spec with
        errs := (collectGlobals Typechecker.new spec.globals spec.init).errs ++
          blocksDiags (blockState spec) bs }) := by
  refine ⟨?_, rfl, fun _ _ => rfl, fun b l => ?_, fun bs => ?_⟩
  · rw [typeCheckSpec_eq, collectGlobals_new]
    rfl
  · rw [checkAPIBlock_blockDiags]
    rfl
  · rw [foldl_blocks_built, collectGlobals_new]
    rfl

/-- Claim C15.  `checkAPIBlock` appends, in this order, the diagnostics of the
precondition when there is one, the diagnostics of the call inferred by
`typecheckFuncCall`, the entry `Call result type unknown in postcondition` exactly when
that call's type is `Unknown`, and the diagnostics of the postcondition expression when
there is one; the type of the precondition is not looked at, so a string literal as
precondition adds nothing. -/
theorem checkAPIBlock_order (tc : Typechecker) (api : API) :
    checkAPIBlock tc api =
      { tc with errs := tc.errs ++
        ((match api.pre with
          | some e => exprDiags tc e
          | none => []) ++
        (typecheckFuncCall { tc with errs := [] } api.call.call.name api.call.call.args).2.errs ++
        (if (typecheckFuncCall tc api.call.call.name api.call.call.args).1.kind =
            TyKind.Unknown then
          ["Call result type unknown in postcondition"] else []) ++
        (match api.response.expr with
          | some e => exprDiags tc e
          | none => [])) } ∧
    (∀ s, exprDiags tc (.String s) = []) := by
  refine ⟨?_, fun s => exprDiags_string tc s⟩
  rw [checkAPIBlock_eq]
  cases api.pre <;> cases api.response.expr <;> rfl

/-- Claim C16.  A call through `typecheckFuncCall` to a name that is not in
`functionEnv` appends exactly `Undefined function: <name>`, infers no argument and
returns `Unknown`; a call to a function of the table with as many arguments as declared
parameters returns the declared return type and appends, argument after argument, the
diagnostics of the argument followed by `Type mismatch in argument <i> for function
<name>` (with `i` counted from 1) iff the type of the argument differs from the declared
parameter type.  A call node with a name other than `map_access` and `equals` is
inferred by `typecheckExpr` in this way. -/
theorem typecheckFuncCall_declared (tc : Typechecker) (name : String) (args : List Expr) :
    (tc.functionEnv.find name = none →
      typecheckFuncCall tc name args =
        (⟨TyKind.Unknown⟩, { tc with errs := tc.errs ++ ["Undefined function: " ++ name] })) ∧
    (∀ sig, tc.functionEnv.find name = some sig → args.length = sig.1.length →
      typecheckFuncCall tc name args =
        (sig.2, { tc with errs := tc.errs ++
          args.enum.flatMap (fun p =>
            exprDiags tc p.2 ++
              (if exprType tc p.2 ≠ sig.1.getD p.1 default then
                ["Type mismatch in argument " ++ toString (p.1 + 1) ++
                  " for function " ++ name]
               else [])) })) ∧
    (name ≠ "map_access" → name ≠ "equals" →
      typecheckExpr tc (.FuncCall name args) = typecheckFuncCall tc name args) := by
  refine ⟨fun h => ?_, fun sig h hlen => ?_, fun h1 h2 => ?_⟩
  · have h0 := typecheckFuncCall_cases tc name args
    rw [h] at h0
    exact h0
  · have h0 := typecheckFuncCall_cases tc name args
    rw [h] at h0
    simp only [hlen, ne_eq, not_true_eq_false, if_false, argsDiags_eq_flatMap] at h0
    exact h0
  · rw [typecheckExpr_call, if_neg h1, if_neg h2]

/-- Claim C17.  The diagnostic list only grows: after `typecheckExpr`, and after
`checkAPIBlock`, the list is the list before the call followed by the appended entries,
from every checker state, and `report` appends one entry at the end.  Within a run,
which starts from the cleared list, the list reached after any number of initialisers
and the list reached after any number of blocks are initial segments of the final
list. -/
theorem diagnostics_append_only (tc : Typechecker) (e : Expr) (b : API) (msg : String) :
    (∃ d, (typecheckExpr tc e).2.errs = tc.errs ++ d) ∧
    (∃ d, (checkAPIBlock tc b).errs = tc.errs ++ d) ∧
    (report tc msg).errs = tc.errs ++ [msg] ∧
    (∀ spec before after, spec.init = before ++ after →
      ∃ d, errors (typeCheckSpec tc spec).2 =
        (collectGlobals Typechecker.new spec.globals before).errs ++ d) ∧
    (∀ spec bs1 bs2, spec.blocks = bs1 ++ bs2 →
      ∃ d, errors (typeCheckSpec tc spec).2 =
        (bs1.foldl (fun s api => checkAPIBlock s api)
          (collectFunctions (collectGlobals Typechecker.new spec.globals spec.init)
            spec.functions)).errs ++ d) := by
  refine ⟨⟨exprDiags tc e, ?_⟩, ⟨blockDiags tc b, ?_⟩, rfl, ?_, ?_⟩
  · rw [typecheckExpr_eq]
  · rw [checkAPIBlock_blockDiags]
  · intro spec before after h
    refine ⟨initsDiags { initState spec with
      variableEnv := initsEnv (initState spec) before } after ++
      blocksDiags (blockState spec) spec.blocks, ?_⟩
    rw [typeCheckSpec_eq, collectGlobals_new]
    show specDiags spec = _
    rw [specDiags, h, initsDiags_append, List.append_assoc]
    rfl
  · intro spec bs1 bs2 h
    refine ⟨blocksDiags (blockState spec) bs2, ?_⟩
    rw [typeCheckSpec_eq, foldl_blocks_built]
    show specDiags spec = _
    rw [specDiags, h, blocksDiags_append, List.append_assoc]

/-- Claim C18.  Inference and block checking leave the three environments as they
were, from every checker state: a lookup of an absent name inserts nothing. -/
theorem environments_unchanged (tc : Typechecker) (e : Expr) (b : API) :
    ((typecheckExpr tc e).2.functionEnv = tc.functionEnv ∧
      (typecheckExpr tc e).2.globals = tc.globals ∧
      (typecheckExpr tc e).2.variableEnv = tc.variableEnv) ∧
    ((checkAPIBlock tc b).functionEnv = tc.functionEnv ∧
      (checkAPIBlock tc b).globals = tc.globals ∧
      (checkAPIBlock tc b).variableEnv = tc.variableEnv) := by
  rw [typecheckExpr_eq, checkAPIBlock_blockDiags]
  exact ⟨⟨rfl, rfl, rfl⟩, rfl, rfl, rfl⟩

/-- Claim C16, witness: an undeclared name, and `signup(x, 3)` in the environments of
the mock spec. -/
theorem typecheckFuncCall_declared_witness :
    (mockState.functionEnv.find "foo" = none ∧
      typecheckFuncCall mockState "foo" [Expr.Var "x"] =
        (⟨TyKind.Unknown⟩, { mockState with errs := ["Undefined function: foo"] })) ∧
    (mockState.functionEnv.find "signup" =
        some ([⟨TyKind.String⟩, ⟨TyKind.String⟩], ⟨TyKind.String⟩) ∧
      typecheckFuncCall mockState "signup" [Expr.Var "x", Expr.Num 3] =
        (⟨TyKind.String⟩, { mockState with errs := ["Undefined variable: x",
          "Type mismatch in argument 1 for function signup",
          "Type mismatch in argument 2 for function signup"] })) := by
  have h := typecheckFuncCall_declared mockState
  refine ⟨⟨rfl, (h "foo" [Expr.Var "x"]).1 rfl⟩, rfl, ?_⟩
  rw [(h "signup" [Expr.Var "x", Expr.Num 3]).2.1 _ rfl rfl]
  simp [List.enum, List.enumFrom_cons, exprDiags_var, exprType_var, exprDiags_num,
    exprType_num, mockState, standardEnv, UnorderedMap.find]
  exact ⟨rfl, rfl⟩

/-- Claim C17, witness: in Scenario B the list after the initialisers and the list
after the only block, and the list after two of the four initialisers, are initial segments of the final list. -/
theorem diagnostics_append_only_witness :
    (∃ d, errors (typeCheckSpec Typechecker.new (createMockASTFromSampleAPI true)).2 =
      (collectGlobals Typechecker.new (createMockASTFromSampleAPI true).globals
        [Init.mk "uid" (.String "user123"), Init.mk "p" (.String "password")]).errs ++ d) ∧
    (∃ d, errors (typeCheckSpec Typechecker.new (createMockASTFromSampleAPI true)).2 =
      ((createMockASTFromSampleAPI true).blocks.foldl (fun s api => checkAPIBlock s api)
        (collectFunctions
          (collectGlobals Typechecker.new (createMockASTFromSampleAPI true).globals
            (createMockASTFromSampleAPI true).init)
          (createMockASTFromSampleAPI true).functions)).errs ++ d) :=
  ⟨(diagnostics_append_only Typechecker.new (Expr.Num 0)
      ⟨none, ⟨⟨"signup", []⟩, ⟨HTTPResponseCode.OK_200, none⟩⟩,
        ⟨HTTPResponseCode.OK_200, none⟩⟩ "").2.2.2.1
      (createMockASTFromSampleAPI true)
      [Init.mk "uid" (.String "user123"), Init.mk "p" (.String "password")]
      [Init.mk "NIL" (.String ""), Init.mk "U_prime" (.Var "U")] rfl,
    (diagnostics_append_only Typechecker.new (Expr.Num 0)
      ⟨none, ⟨⟨"signup", []⟩, ⟨HTTPResponseCode.OK_200, none⟩⟩,
        ⟨HTTPResponseCode.OK_200, none⟩⟩ "").2.2.2.2
      (createMockASTFromSampleAPI true) (createMockASTFromSampleAPI true).blocks []
      (List.append_nil _).symm⟩

/-! ## Lemmas: what the built environments bind -/

theorem find_initsEnv_of_not_mem (tc : Typechecker) (inits : List Init) (n : String)
    (h : ∀ i ∈ inits, i.varName ≠ n) :
    UnorderedMap.find (initsEnv tc inits) n = UnorderedMap.find tc.variableEnv n := by
  induction inits generalizing tc with
  | nil => rfl
  | cons i rest ih =>
    have h1 : i.varName ≠ n := h i (by simp)
    show UnorderedMap.find (initsEnv { tc with
      variableEnv := tc.variableEnv.assign i.varName (exprType tc i.expr) } rest) n = _
    rw [ih _ (fun j hj => h j (by simp [hj]))]
    exact UnorderedMap.find_assign_of_ne _ _ h1

theorem find_initsEnv_last (tc : Typechecker) (before after : List Init) (i : Init)
    (h : ∀ j ∈ after, j.varName ≠ i.varName) :
    UnorderedMap.find (initsEnv tc (before ++ i :: after)) i.varName =
      some (exprType { tc with variableEnv := initsEnv tc before } i.expr) := by
  rw [initsEnv_append]
  show UnorderedMap.find (initsEnv { tc with
    variableEnv := (initsEnv tc before).assign i.varName
      (exprType { tc with variableEnv := initsEnv tc before } i.expr) } after) i.varName = _
  rw [find_initsEnv_of_not_mem _ _ _ h]
  exact UnorderedMap.find_assign_self _ _ _

theorem find_declaredGlobals_of_not_mem (g : UnorderedMap Ty) (decls : List Decl)
    (k : String) (h : ∀ d ∈ decls, d.name ≠ k) :
    UnorderedMap.find (declaredGlobals g decls) k = UnorderedMap.find g k := by
  induction decls generalizing g with
  | nil => rfl
  | cons d rest ih =>
    have h1 : d.name ≠ k := h d (by simp)
    show UnorderedMap.find (declaredGlobals (g.assign d.name (declType d)) rest) k = _
    rw [ih _ (fun d' hd => h d' (by simp [hd])), UnorderedMap.find_assign_of_ne _ _ h1]

/-- The map of globals binds a name to the type of its last declaration. -/
theorem find_declaredGlobals_last (g : UnorderedMap Ty) (before after : List Decl)
    (d : Decl) (hlast : ∀ d' ∈ after, d'.name ≠ d.name) :
    UnorderedMap.find (declaredGlobals g (before ++ d :: after)) d.name =
      some (declType d) := by
  have happ : declaredGlobals g (before ++ d :: after) =
      declaredGlobals ((declaredGlobals g before).assign d.name (declType d)) after := by
    simp [declaredGlobals, List.foldl_append]
  rw [happ, find_declaredGlobals_of_not_mem _ _ _ hlast, UnorderedMap.find_assign_self]

theorem foldl_push_eq_replicate {α : Type} (x : Ty) (l : List α) (acc : List Ty) :
    l.foldl (fun acc _ => acc ++ [x]) acc = acc ++ List.replicate l.length x := by
  induction l generalizing acc with
  | nil => simp
  | cons a rest ih =>
    rw [List.foldl_cons, ih, List.length_cons, List.replicate_succ, List.append_assoc]
    rfl

theorem funcSig_eq (d : FuncDecl) :
    funcSig d = (List.replicate d.params.length ⟨TyKind.String⟩, ⟨TyKind.String⟩) := by
  simp [funcSig, foldl_push_eq_replicate]

theorem find_declaredFunctions_ne_none (f : UnorderedMap (List Ty × Ty))
    (funcs : List FuncDecl) (name : String) :
    UnorderedMap.find (declaredFunctions f funcs) name ≠ none ↔
      (UnorderedMap.find f name ≠ none ∨ ∃ d ∈ funcs, d.name = name) := by
  induction funcs generalizing f with
  | nil => simp [declaredFunctions]
  | cons d rest ih =>
    show UnorderedMap.find (declaredFunctions (f.assign d.name (funcSig d)) rest) name ≠ none ↔ _
    rw [ih]
    by_cases h : d.name = name
    · subst h
      simp [UnorderedMap.find_assign_self]
    · rw [UnorderedMap.find_assign_of_ne _ _ h]
      simp [h]

theorem declaredFunctions_congr (f : UnorderedMap (List Ty × Ty))
    (funcs funcs' : List FuncDecl)
    (h : List.Forall₂ (fun d d' : FuncDecl =>
      d'.name = d.name ∧ d'.params.length = d.params.length) funcs funcs') :
    declaredFunctions f funcs' = declaredFunctions f funcs := by
  induction h generalizing f with
  | nil => rfl
  | cons hd _ ih =>
    show declaredFunctions (f.assign _ (funcSig _)) _ = declaredFunctions (f.assign _ (funcSig _)) _
    rw [funcSig_eq, funcSig_eq, hd.1, hd.2]
    exact ih _

theorem built_state (spec : Spec) :
    collectFunctions (collectGlobals Typechecker.new spec.globals spec.init) spec.functions =
      { blockState spec with errs := initsDiags (initState spec) spec.init } := by
  rw [collectFunctions_eq, collectGlobals_new]
  rfl

/-- Claim C11.  After environment building `variableEnv` binds the five standard
names; a name without initialiser is bound as seeded (`uid`, `p`, `NIL`, `OK` to
`String`, `U_prime` to `Map`, any other name not at all); a name with an initialiser is
bound to the type inferred for its last initialiser in the state reached when the
initialisers before it have been processed. -/
theorem variableEnv_after_building (spec : Spec) :
    (∀ n ∈ ["uid", "p", "NIL", "U_prime", "OK"],
      (collectFunctions (collectGlobals Typechecker.new spec.globals spec.init)
        spec.functions).variableEnv.find n ≠ none) ∧
    (∀ n, (∀ i ∈ spec.init, i.varName ≠ n) →
      (collectFunctions (collectGlobals Typechecker.new spec.globals spec.init)
        spec.functions).variableEnv.find n =
        UnorderedMap.find [("uid", (⟨TyKind.String⟩ : Ty)), ("p", ⟨TyKind.String⟩),
          ("NIL", ⟨TyKind.String⟩), ("U_prime", ⟨TyKind.Map⟩), ("OK", ⟨TyKind.String⟩)] n) ∧
    (∀ before i after, spec.init = before ++ i :: after →
      (∀ j ∈ after, j.varName ≠ i.varName) →
      (collectFunctions (collectGlobals Typechecker.new spec.globals spec.init)
        spec.functions).variableEnv.find i.varName =
        some (typecheckExpr (collectGlobals Typechecker.new spec.globals before) i.expr).1) := by
  rw [built_state]
  refine ⟨fun n hn hnone => ?_, fun n hn => ?_, fun before i after h hlast => ?_⟩
  · have h0 : UnorderedMap.find standardEnv n = none :=
      find_initsEnv_eq_none (initState spec) spec.init n hnone
    simp only [List.mem_cons, List.mem_singleton, List.not_mem_nil, or_false] at hn
    rcases hn with rfl | rfl | rfl | rfl | rfl <;> revert h0 <;> decide
  · exact find_initsEnv_of_not_mem (initState spec) spec.init n hn
  · show UnorderedMap.find (initsEnv (initState spec) spec.init) i.varName = _
    rw [h, find_initsEnv_last _ _ _ _ hlast, collectGlobals_new]
    exact congrArg some (exprType_errs
      { initState spec with variableEnv := initsEnv (initState spec) before }
      (initsDiags (initState spec) before) i.expr).symm

/-- Claim C11, witness: in Scenario A `OK` has no initialiser and keeps `String`, and
`U_prime` is bound to the type of its initialiser `U`, inferred after the first three
initialisers, which is `Map`. -/
theorem variableEnv_after_building_witness :
    (collectFunctions (collectGlobals Typechecker.new
        (createMockASTFromSampleAPI false).globals (createMockASTFromSampleAPI false).init)
      (createMockASTFromSampleAPI false).functions).variableEnv.find "OK" =
      some ⟨TyKind.String⟩ ∧
    (collectFunctions (collectGlobals Typechecker.new
        (createMockASTFromSampleAPI false).globals (createMockASTFromSampleAPI false).init)
      (createMockASTFromSampleAPI false).functions).variableEnv.find "U_prime" =
      some (typecheckExpr (collectGlobals Typechecker.new
        (createMockASTFromSampleAPI false).globals
        [Init.mk "uid" (.String "user123"), Init.mk "p" (.String "password"),
          Init.mk "NIL" (.String "")]) (Expr.Var "U")).1 ∧
    (typecheckExpr (collectGlobals Typechecker.new
        (createMockASTFromSampleAPI false).globals
        [Init.mk "uid" (.String "user123"), Init.mk "p" (.String "password"),
          Init.mk "NIL" (.String "")]) (Expr.Var "U")).1 = ⟨TyKind.Map⟩ := by
  have h := variableEnv_after_building (createMockASTFromSampleAPI false)
  refine ⟨?_, ?_, ?_⟩
  · rw [h.2.1 "OK" (by simp [createMockASTFromSampleAPI])]
    rfl
  · exact h.2.2 [Init.mk "uid" (.String "user123"), Init.mk "p" (.String "password"),
      Init.mk "NIL" (.String "")] (Init.mk "U_prime" (.Var "U")) [] rfl (by simp)
  · rw [collectGlobals_new]
    show exprType _ _ = _
    simp [exprType_var, createMockASTFromSampleAPI, initsEnv, exprType_string, standardEnv,
      declaredGlobals, declType, TypeExpr.typeExpression, UnorderedMap.assign,
      UnorderedMap.find]

/-- Claim C12, as the code has it.  After environment building, for every declaration
`d` of the spec's globals that no later declaration of the same name follows,
`globals[d.name]` is `Map` if and only if the declared type expression of `d` is the
map-type form, and is `String` otherwise. -/
theorem globals_after_building (spec : Spec) (before after : List Decl) (d : Decl)
    (h : spec.globals = before ++ d :: after)
    (hlast : ∀ d' ∈ after, d'.name ≠ d.name) :
    ((collectFunctions (collectGlobals Typechecker.new spec.globals spec.init)
        spec.functions).globals.find d.name = some ⟨TyKind.Map⟩ ↔
      d.type.typeExpression = TypeExpression.MAP_TYPE) ∧
    (d.type.typeExpression ≠ TypeExpression.MAP_TYPE →
      (collectFunctions (collectGlobals Typechecker.new spec.globals spec.init)
        spec.functions).globals.find d.name = some ⟨TyKind.String⟩) := by
  rw [built_state]
  have hfind : UnorderedMap.find (declaredGlobals [] spec.globals) d.name =
      some (declType d) := by
    rw [h]
    exact find_declaredGlobals_last [] before after d hlast
  show (UnorderedMap.find (declaredGlobals [] spec.globals) d.name = _ ↔ _) ∧
    (_ → UnorderedMap.find (declaredGlobals [] spec.globals) d.name = _)
  rw [hfind]
  by_cases hm : d.type.typeExpression = TypeExpression.MAP_TYPE <;> simp [declType, hm]

/-- Claim C12, witness: the global `U` of Scenario A. -/
theorem globals_after_building_witness :
    (collectFunctions (collectGlobals Typechecker.new
        (createMockASTFromSampleAPI false).globals (createMockASTFromSampleAPI false).init)
      (createMockASTFromSampleAPI false).functions).globals.find "U" = some ⟨TyKind.Map⟩ :=
  (globals_after_building (createMockASTFromSampleAPI false) [] []
    (Decl.mk "U" (.MapType (.TypeConst "string") (.TypeConst "string"))) rfl
    (by simp)).1.2 rfl

/-- Claim C12, counterexample.  When `U` is declared as a map and then again as a
string, the first declaration has the map-type form and yet `globals["U"]` is `String`:
the later declaration has overwritten the entry. -/
theorem redeclared_global_overwritten :
    Decl.mk "U" (.MapType (.TypeConst "string") (.TypeConst "string")) ∈
      redeclaringSpec.globals ∧
    (TypeExpr.MapType (.TypeConst "string") (.TypeConst "string")).typeExpression =
      TypeExpression.MAP_TYPE ∧
    (collectFunctions (collectGlobals Typechecker.new redeclaringSpec.globals
      redeclaringSpec.init) redeclaringSpec.functions).globals.find "U" =
      some ⟨TyKind.String⟩ := by
  refine ⟨by simp [redeclaringSpec], rfl, ?_⟩
  rw [built_state]
  simp [blockState, redeclaringSpec, declaredGlobals, declType, TypeExpr.typeExpression,
    UnorderedMap.assign, UnorderedMap.find]

/-- Claim C13, as the code has it.  After environment building `functionEnv` binds
exactly the declared function names; a declaration with `n` parameters that no later
declaration of the same name follows is recorded as `n` parameters of type `String`
and return type `String`, whatever annotations it carries; and two specs that differ
only in the annotations of their function declarations (same names and parameter
counts, in the same order) give the same result. -/
theorem functionEnv_after_building (tc : Typechecker) (spec : Spec) :
    (∀ name,
      (collectFunctions (collectGlobals Typechecker.new spec.globals spec.init)
        spec.functions).functionEnv.find name ≠ none ↔
      ∃ d ∈ spec.functions, d.name = name) ∧
    (∀ before d after, spec.functions = before ++ d :: after →
      (∀ d' ∈ after, d'.name ≠ d.name) →
      (collectFunctions (collectGlobals Typechecker.new spec.globals spec.init)
        spec.functions).functionEnv.find d.name =
        some (List.replicate d.params.length ⟨TyKind.String⟩, ⟨TyKind.String⟩)) ∧
    (∀ spec' : Spec, spec'.globals = spec.globals → spec'.init = spec.init →
      spec'.blocks = spec.blocks →
      List.Forall₂ (fun d d' : FuncDecl =>
        d'.name = d.name ∧ d'.params.length = d.params.length)
        spec.functions spec'.functions →
      typeCheckSpec tc spec' = typeCheckSpec tc spec) := by
  rw [built_state]
  refine ⟨fun name => ?_, fun before d after h hlast => ?_, fun spec' hg hi hb hf => ?_⟩
  · show UnorderedMap.find (declaredFunctions [] spec.functions) name ≠ none ↔ _
    rw [find_declaredFunctions_ne_none]
    simp [UnorderedMap.find]
  · show UnorderedMap.find (declaredFunctions [] spec.functions) d.name = _
    rw [h, find_declaredFunctions_last [] before after d hlast, funcSig_eq]
  · have hs : blockState spec' = blockState spec := by
      simp only [blockState, initState, hg, hi, declaredFunctions_congr _ _ _ hf]
    have hd : specDiags spec' = specDiags spec := by
      simp only [specDiags, hs, hb, hi]
      simp only [initState, hg]
    rw [typeCheckSpec_eq, typeCheckSpec_eq, hs, hd]

/-- Claim C13, witness: `signup` of Scenario A, and Scenario A with other annotations
on `signup`. -/
theorem functionEnv_after_building_witness :
    (collectFunctions (collectGlobals Typechecker.new
        (createMockASTFromSampleAPI false).globals (createMockASTFromSampleAPI false).init)
      (createMockASTFromSampleAPI false).functions).functionEnv.find "signup" =
      some ([⟨TyKind.String⟩, ⟨TyKind.String⟩], ⟨TyKind.String⟩) ∧
    typeCheckSpec Typechecker.new
      { createMockASTFromSampleAPI false with
        functions := [FuncDecl.mk "signup"
          [.TypeConst "int", .MapType (.TypeConst "string") (.TypeConst "int")]
          (HTTPResponseCode.other 404, [])] } =
      typeCheckSpec Typechecker.new (createMockASTFromSampleAPI false) := by
  have h := functionEnv_after_building Typechecker.new (createMockASTFromSampleAPI false)
  refine ⟨?_, ?_⟩
  · exact h.2.1 [] (FuncDecl.mk "signup" [.TypeConst "string", .TypeConst "string"]
      (HTTPResponseCode.OK_200, [.TypeConst "string"])) [] rfl (by simp)
  · exact h.2.2 _ rfl rfl rfl (List.Forall₂.cons ⟨rfl, rfl⟩ List.Forall₂.nil)

/-- Claim C13, counterexample.  When `signup` is declared with two parameters and then
again with one, the first declaration has two parameters and yet `functionEnv["signup"]`
holds one parameter type: the later declaration has overwritten the entry. -/
theorem redeclared_function_overwritten :
    FuncDecl.mk "signup" [.TypeConst "string", .TypeConst "string"]
      (HTTPResponseCode.OK_200, [.TypeConst "string"]) ∈ redeclaringSpec.functions ∧
    (collectFunctions (collectGlobals Typechecker.new redeclaringSpec.globals
      redeclaringSpec.init) redeclaringSpec.functions).functionEnv.find "signup" =
      some ([⟨TyKind.String⟩], ⟨TyKind.String⟩) := by
  refine ⟨by simp [redeclaringSpec], ?_⟩
  rw [built_state]
  simp [blockState, redeclaringSpec, declaredFunctions, funcSig, UnorderedMap.assign,
    UnorderedMap.find]

/-! ## Lemmas: `Unknown` comes with a diagnostic -/

theorem UnorderedMap.find_assign_cases {V : Type} (m : UnorderedMap V) (k n : String)
    (v t : V) (h : UnorderedMap.find (UnorderedMap.assign m k v) n = some t) :
    t = v ∨ UnorderedMap.find m n = some t := by
  by_cases hk : k = n
  · subst hk
    rw [UnorderedMap.find_assign_self] at h
    exact Or.inl (Option.some.inj h).symm
  · rw [UnorderedMap.find_assign_of_ne m v hk] at h
    exact Or.inr h

theorem exprDiags_collection (tc : Typechecker) (e : Expr)
    (h : (∃ es, e = .Set es) ∨ (∃ es, e = .Map es) ∨ (∃ es, e = .Tuple es)) :
    exprDiags tc e = ["Unknown expression type"] := by
  rcases h with ⟨es, rfl⟩ | ⟨es, rfl⟩ | ⟨es, rfl⟩ <;>
    simp [exprDiags, typecheckExpr, report]

/-- In environments without `Unknown`, an expression inferred as `Unknown` raises a
diagnostic. -/
theorem exprDiags_ne_nil_of_unknown (tc : Typechecker) (e : Expr)
    (henv : EnvKnown tc)
    (hret : ∀ n sig, tc.functionEnv.find n = some sig → sig.2.kind ≠ TyKind.Unknown)
    (h : (exprType tc e).kind = TyKind.Unknown) : exprDiags tc e ≠ [] := by
  cases e with
  | Var y =>
    rw [exprType_var] at h
    rw [exprDiags_var]
    cases hv : UnorderedMap.find tc.variableEnv y with
    | some t => rw [hv] at h; exact absurd h (henv.1 y t hv)
    | none =>
      cases hg : UnorderedMap.find tc.globals y with
      | some t => rw [hv, hg] at h; exact absurd h (henv.2 y t hg)
      | none => simp
  | FuncCall name args =>
    by_cases h1 : name = "map_access"
    · subst h1
      by_cases h2 : args.length = 2
      · obtain ⟨a, b, rfl⟩ := List.length_eq_two.1 h2
        rw [exprType_mapAccess] at h
        cases h
      · rw [exprDiags_mapAccess_other _ _ h2]
        simp
    · by_cases h3 : name = "equals"
      · subst h3
        by_cases h2 : args.length = 2
        · obtain ⟨a, b, rfl⟩ := List.length_eq_two.1 h2
          rw [exprType_equals] at h
          cases h
        · rw [exprDiags_equals_other _ _ h2]
          simp
      · rw [exprType_userCall tc name args h1 h3, callType_eq] at h
        rw [exprDiags_userCall tc name args h1 h3, callDiags_eq]
        cases hf : UnorderedMap.find tc.functionEnv name with
        | none => simp
        | some sig =>
          rw [hf] at h
          by_cases hlen : args.length = sig.1.length
          · simp only [hlen, ne_eq, not_true_eq_false, if_false] at h
            exact absurd h (hret name sig hf)
          · simp [hlen]
  | Num n => rw [exprType_num] at h; cases h
  | String s => rw [exprType_string] at h; cases h
  | Set es => rw [exprDiags_collection tc _ (Or.inl ⟨es, rfl⟩)]; simp
  | Map es => rw [exprDiags_collection tc _ (Or.inr (Or.inl ⟨es, rfl⟩))]; simp
  | Tuple es => rw [exprDiags_collection tc _ (Or.inr (Or.inr ⟨es, rfl⟩))]; simp

theorem find_mem {V : Type} (m : UnorderedMap V) (n : String) (t : V)
    (h : UnorderedMap.find m n = some t) : (n, t) ∈ m := by
  induction m with
  | nil => cases h
  | cons p rest ih =>
    obtain ⟨k, v⟩ := p
    by_cases hk : k = n
    · subst hk
      simp only [UnorderedMap.find, if_true, Option.some.injEq] at h
      subst h
      simp
    · simp only [UnorderedMap.find, hk, if_false] at h
      exact List.mem_cons_of_mem _ (ih h)

theorem declaredGlobals_known (g : UnorderedMap Ty) (decls : List Decl)
    (hg : ∀ n t, UnorderedMap.find g n = some t → t.kind ≠ TyKind.Unknown) :
    ∀ n t, UnorderedMap.find (declaredGlobals g decls) n = some t →
      t.kind ≠ TyKind.Unknown := by
  induction decls generalizing g with
  | nil => exact hg
  | cons d rest ih =>
    apply ih (g.assign d.name (declType d))
    intro n t h
    rcases UnorderedMap.find_assign_cases _ _ _ _ _ h with rfl | h'
    · unfold declType
      split <;> simp
    · exact hg n t h'

theorem declaredFunctions_known (f : UnorderedMap (List Ty × Ty)) (funcs : List FuncDecl)
    (hf : ∀ n sig, UnorderedMap.find f n = some sig → sig.2.kind ≠ TyKind.Unknown) :
    ∀ n sig, UnorderedMap.find (declaredFunctions f funcs) n = some sig →
      sig.2.kind ≠ TyKind.Unknown := by
  induction funcs generalizing f with
  | nil => exact hf
  | cons d rest ih =>
    apply ih (f.assign d.name (funcSig d))
    intro n sig h
    rcases UnorderedMap.find_assign_cases _ _ _ _ _ h with rfl | h'
    · simp [funcSig]
    · exact hf n sig h'

theorem initState_known (spec : Spec) : EnvKnown (initState spec) := by
  constructor
  · intro n t h
    have hm := find_mem standardEnv n t h
    simp only [standardEnv, List.mem_cons, Prod.mk.injEq, List.mem_singleton,
      List.not_mem_nil, or_false] at hm
    rcases hm with ⟨_, rfl⟩ | ⟨_, rfl⟩ | ⟨_, rfl⟩ | ⟨_, rfl⟩ | ⟨_, rfl⟩ <;> simp
  · exact declaredGlobals_known [] spec.globals (fun n t h => by cases h)

/-- Initialisers that raise no diagnostic leave environments without `Unknown`. -/
theorem initsEnv_known (tc : Typechecker) (inits : List Init)
    (henv : EnvKnown tc)
    (hret : ∀ n sig, tc.functionEnv.find n = some sig → sig.2.kind ≠ TyKind.Unknown)
    (hd : initsDiags tc inits = []) :
    EnvKnown { tc with variableEnv := initsEnv tc inits } := by
  induction inits generalizing tc with
  | nil => exact henv
  | cons i rest ih =>
    simp only [initsDiags, List.append_eq_nil] at hd
    have hty : (exprType tc i.expr).kind ≠ TyKind.Unknown :=
      fun hu => exprDiags_ne_nil_of_unknown tc i.expr henv hret hu hd.1
    refine ih { tc with variableEnv := tc.variableEnv.assign i.varName (exprType tc i.expr) }
      ⟨fun n t h => ?_, henv.2⟩ hret hd.2
    rcases UnorderedMap.find_assign_cases _ _ _ _ _ h with rfl | h'
    · exact hty
    · exact henv.1 n t h'

theorem collectGlobals_noSilentUnknown (spec : Spec) (before : List Init) :
    NoSilentUnknown (collectGlobals Typechecker.new spec.globals before) := by
  rw [collectGlobals_new]
  refine ⟨fun h => ?_, fun n sig h => by cases h⟩
  exact initsEnv_known (initState spec) before (initState_known spec)
    (fun n sig h => by cases h) h

theorem blockState_known (spec : Spec) (h : initsDiags (initState spec) spec.init = []) :
    EnvKnown (blockState spec) := by
  have h0 := initsEnv_known (initState spec) spec.init (initState_known spec)
    (fun n sig h => by cases h) h
  exact ⟨h0.1, h0.2⟩

theorem blockState_returns_known (spec : Spec) :
    ∀ n sig, (blockState spec).functionEnv.find n = some sig →
      sig.2.kind ≠ TyKind.Unknown :=
  declaredFunctions_known [] spec.functions (fun n sig h => by cases h)

theorem blockDiags_eq_nil_of_mem (tc : Typechecker) (blocks : List API) (b : API)
    (hb : b ∈ blocks) (h : blocksDiags tc blocks = []) : blockDiags tc b = [] := by
  apply List.eq_nil_iff_forall_not_mem.2
  intro m hm
  have := blockDiags_subset_blocksDiags tc blocks b hb m hm
  rw [h] at this
  cases this

/-- Claim C19.  `Unknown` never comes without a diagnostic.  The invariant
`NoSilentUnknown` (while the diagnostic list is empty no entry of `variableEnv` or
`globals` is `Unknown`) holds after any number of initialisers and after any number of
blocks of a run; from every state with the invariant, `typecheckExpr` keeps the
invariant and, when it returns `Unknown`, leaves a non-empty diagnostic list.  Hence when
`typeCheckSpec` returns true, every initialiser, precondition, call and postcondition
was inferred with a type other than `Unknown`. -/
theorem unknown_never_silent (tc : Typechecker) (spec : Spec) :
    (∀ before after, spec.init = before ++ after →
      NoSilentUnknown (collectGlobals Typechecker.new spec.globals before)) ∧
    (∀ bs1 bs2, spec.blocks = bs1 ++ bs2 →
      NoSilentUnknown (bs1.foldl (fun s api => checkAPIBlock s api)
        (collectFunctions (collectGlobals Typechecker.new spec.globals spec.init)
          spec.functions))) ∧
    (∀ s e, NoSilentUnknown s →
      NoSilentUnknown (typecheckExpr s e).2 ∧
      ((typecheckExpr s e).1.kind = TyKind.Unknown → (typecheckExpr s e).2.errs ≠ [])) ∧
    ((typeCheckSpec tc spec).1 = true →
      (∀ before i after, spec.init = before ++ i :: after →
        (typecheckExpr (collectGlobals Typechecker.new spec.globals before) i.expr).1.kind ≠
          TyKind.Unknown) ∧
      (∀ b ∈ spec.blocks, ∀ l,
        (∀ e, b.pre = some e →
          (typecheckExpr { blockState spec with errs := l } e).1.kind ≠ TyKind.Unknown) ∧
        (checkCall { blockState spec with errs := l } b.call).1.kind ≠ TyKind.Unknown ∧
        (∀ e, b.response.expr = some e →
          (typecheckExpr { blockState spec with errs := l } e).1.kind ≠
            TyKind.Unknown))) := by
  refine ⟨fun before _ _ => collectGlobals_noSilentUnknown spec before,
    fun bs1 _ _ => ?_, fun s e hs => ?_, fun htrue => ?_⟩
  · rw [foldl_blocks_built]
    refine ⟨fun h => ?_, blockState_returns_known spec⟩
    have h1 : initsDiags (initState spec) spec.init = [] :=
      (List.append_eq_nil.1 h).1
    exact blockState_known spec h1
  · rw [typecheckExpr_eq]
    refine ⟨⟨fun h => ?_, hs.2⟩, fun hu hnil => ?_⟩
    · exact hs.1 (List.append_eq_nil.1 h).1
    · have h0 := List.append_eq_nil.1 hnil
      exact exprDiags_ne_nil_of_unknown s e (hs.1 h0.1) hs.2 hu h0.2
  · rw [typeCheckSpec_eq] at htrue
    have hnil : specDiags spec = [] := List.isEmpty_iff.1 htrue
    have hi : initsDiags (initState spec) spec.init = [] := (List.append_eq_nil.1 hnil).1
    have hb : blocksDiags (blockState spec) spec.blocks = [] := (List.append_eq_nil.1 hnil).2
    refine ⟨fun before i after h hu => ?_, fun b hmem l => ?_⟩
    · rw [h, initsDiags_append] at hi
      have h1 := List.append_eq_nil.1 hi
      have h2 : exprDiags { initState spec with
          variableEnv := initsEnv (initState spec) before } i.expr = [] := by
        have := h1.2
        simp only [initsDiags, List.append_eq_nil] at this
        exact this.1
      rw [collectGlobals_new] at hu
      have hu' : (exprType { initState spec with
          variableEnv := initsEnv (initState spec) before } i.expr).kind = TyKind.Unknown := by
        rw [← exprType_errs { initState spec with
          variableEnv := initsEnv (initState spec) before }
          (initsDiags (initState spec) before) i.expr]
        exact hu
      exact exprDiags_ne_nil_of_unknown _ i.expr
        (initsEnv_known (initState spec) before (initState_known spec)
          (fun n sig h => by cases h) h1.1)
        (fun n sig h => by cases h) hu' h2
    · have hbd := blockDiags_eq_nil_of_mem _ _ b hmem hb
      rw [blockDiags_eq] at hbd
      simp only [List.append_eq_nil] at hbd
      obtain ⟨⟨⟨hpre, _⟩, hcall⟩, hpost⟩ := hbd
      have hk := blockState_known spec hi
      have hr := blockState_returns_known spec
      refine ⟨fun e he hu => ?_, fun hu => ?_, fun e he hu => ?_⟩
      · rw [he] at hpre
        have hu' : (exprType (blockState spec) e).kind = TyKind.Unknown := by
          rw [← exprType_errs (blockState spec) l e]
          exact hu
        exact exprDiags_ne_nil_of_unknown (blockState spec) e hk hr hu' hpre
      · have : (callType (blockState spec) b.call.call.name b.call.call.args).kind =
            TyKind.Unknown := by
          rw [← callType_errs (blockState spec) l]
          exact hu
        simp [this] at hcall
      · rw [he] at hpost
        have hu' : (exprType (blockState spec) e).kind = TyKind.Unknown := by
          rw [← exprType_errs (blockState spec) l e]
          exact hu
        exact exprDiags_ne_nil_of_unknown (blockState spec) e hk hr hu' hpost

/-! ## Lemmas: the diagnostics of expressions -/

theorem append_ne_append_of_take (p s q t : String) (n : Nat)
    (hp : n ≤ p.data.length) (hq : n ≤ q.data.length)
    (h : p.data.take n ≠ q.data.take n) : p ++ s ≠ q ++ t := by
  intro heq
  apply h
  have h1 := congrArg (fun z : String => z.data.take n) heq
  simp only [String.data_append] at h1
  rw [List.take_append_of_le_length hp, List.take_append_of_le_length hq] at h1
  exact h1

theorem append_left_cancel (p s t : String) (h : p ++ s = p ++ t) : s = t := by
  have h1 := congrArg String.data h
  simp only [String.data_append] at h1
  exact String.ext (List.append_cancel_left h1)

theorem argsDiags_exprMsg (tc : Typechecker) (name : String) (paramTypes : List Ty)
    (args : List Expr) (ih : ∀ a ∈ args, ∀ m ∈ exprDiags tc a, ExprMsg m) (i : Nat) :
    ∀ m ∈ argsDiags tc name paramTypes args i, ExprMsg m := by
  induction args generalizing i with
  | nil => intro m hm; rw [argsDiags_nil] at hm; cases hm
  | cons a rest ihr =>
    intro m hm
    rw [argsDiags_cons] at hm
    simp only [List.mem_append] at hm
    rcases hm with (hm | hm) | hm
    · exact ih a (by simp) m hm
    · split at hm
      · simp only [List.mem_singleton] at hm
        exact Or.inr (Or.inr (Or.inr (Or.inl ⟨i, name, hm⟩)))
      · cases hm
    · exact ihr (fun b hb => ih b (by simp [hb])) (i + 1) m hm

theorem exprDiags_exprMsg (tc : Typechecker) (e : Expr) :
    ∀ m ∈ exprDiags tc e, ExprMsg m := by
  induction e using Expr.induction_on with
  | hvar y =>
    intro m hm
    rw [exprDiags_var] at hm
    cases hv : UnorderedMap.find tc.variableEnv y with
    | some t => rw [hv] at hm; cases hm
    | none =>
      cases hg : UnorderedMap.find tc.globals y with
      | some t => rw [hv, hg] at hm; cases hm
      | none =>
        rw [hv, hg] at hm
        simp only [List.mem_singleton] at hm
        exact Or.inl ⟨y, hm⟩
  | hcall name args ih =>
    intro m hm
    have hlit : ∀ m', m = m' → m' ∈ ["map_access requires exactly 2 arguments",
        "First argument to map_access must be a map",
        "Second argument to map_access must be a string",
        "equals requires exactly 2 arguments",
        "Type mismatch in equality comparison",
        "Unknown expression type"] → ExprMsg m :=
      fun m' h1 h2 => Or.inr (Or.inr (Or.inr (Or.inr (h1 ▸ h2))))
    by_cases h1 : name = "map_access"
    · subst h1
      by_cases h2 : args.length = 2
      · obtain ⟨a, b, rfl⟩ := List.length_eq_two.1 h2
        rw [exprDiags_mapAccess] at hm
        simp only [List.mem_append] at hm
        rcases hm with ((hm | hm) | hm) | hm
        · exact ih a (by simp) m hm
        · exact ih b (by simp) m hm
        · split at hm
          · exact hlit _ (List.mem_singleton.1 hm) (by simp)
          · cases hm
        · split at hm
          · exact hlit _ (List.mem_singleton.1 hm) (by simp)
          · cases hm
      · rw [exprDiags_mapAccess_other _ _ h2] at hm
        exact hlit _ (List.mem_singleton.1 hm) (by simp)
    · by_cases h3 : name = "equals"
      · subst h3
        by_cases h2 : args.length = 2
        · obtain ⟨a, b, rfl⟩ := List.length_eq_two.1 h2
          rw [exprDiags_equals] at hm
          simp only [List.mem_append] at hm
          rcases hm with (hm | hm) | hm
          · exact ih a (by simp) m hm
          · exact ih b (by simp) m hm
          · split at hm
            · exact hlit _ (List.mem_singleton.1 hm) (by simp)
            · cases hm
        · rw [exprDiags_equals_other _ _ h2] at hm
          exact hlit _ (List.mem_singleton.1 hm) (by simp)
      · rw [exprDiags_userCall tc name args h1 h3, callDiags_eq] at hm
        cases hf : UnorderedMap.find tc.functionEnv name with
        | none =>
          rw [hf] at hm
          exact Or.inr (Or.inl ⟨name, h1, h3, List.mem_singleton.1 hm⟩)
        | some sig =>
          rw [hf] at hm
          by_cases hlen : args.length = sig.1.length
          · simp only [hlen, ne_eq, not_true_eq_false, if_false] at hm
            exact argsDiags_exprMsg tc name sig.1 args ih 0 m hm
          · simp only [hlen, ne_eq, not_false_eq_true, if_true] at hm
            exact Or.inr (Or.inr (Or.inl ⟨name, List.mem_singleton.1 hm⟩))
  | hnum n => intro m hm; rw [exprDiags_num] at hm; cases hm
  | hstr s => intro m hm; rw [exprDiags_string] at hm; cases hm
  | hset es =>
    intro m hm
    rw [exprDiags_collection tc _ (Or.inl ⟨es, rfl⟩)] at hm
    exact Or.inr (Or.inr (Or.inr (Or.inr (by simp [List.mem_singleton.1 hm]))))
  | hmap es =>
    intro m hm
    rw [exprDiags_collection tc _ (Or.inr (Or.inl ⟨es, rfl⟩))] at hm
    exact Or.inr (Or.inr (Or.inr (Or.inr (by simp [List.mem_singleton.1 hm]))))
  | htuple es =>
    intro m hm
    rw [exprDiags_collection tc _ (Or.inr (Or.inr ⟨es, rfl⟩))] at hm
    exact Or.inr (Or.inr (Or.inr (Or.inr (by simp [List.mem_singleton.1 hm]))))

theorem not_exprMsg_undefined_builtin (name : String)
    (hname : name = "map_access" ∨ name = "equals") :
    ¬ ExprMsg ("Undefined function: " ++ name) := by
  rintro (⟨y, h⟩ | ⟨n, h1, h2, h⟩ | ⟨n, h⟩ | ⟨i, n, h⟩ | h)
  · exact append_ne_append_of_take _ _ _ _ 11 (by decide) (by decide) (by decide) h.symm
  · have := append_left_cancel _ _ _ h
    rcases hname with rfl | rfl
    · exact h1 this.symm
    · exact h2 this.symm
  · exact append_ne_append_of_take _ _ _ _ 1 (by decide) (by decide) (by decide) h.symm
  · rw [String.append_assoc, String.append_assoc] at h
    exact append_ne_append_of_take _ _ _ _ 1 (by decide) (by decide) (by decide) h.symm
  · have hne : ∀ m' ∈ ["map_access requires exactly 2 arguments",
        "First argument to map_access must be a map",
        "Second argument to map_access must be a string",
        "equals requires exactly 2 arguments",
        "Type mismatch in equality comparison",
        "Unknown expression type"], "Undefined function: " ++ name ≠ m' := by
      rcases hname with rfl | rfl <;> decide
    exact hne _ h rfl

theorem not_exprMsg_call_result : ¬ ExprMsg "Call result type unknown in postcondition" := by
  have key : ∀ p s : String, 1 ≤ p.data.length →
      p.data.take 1 ≠ "Call result type unknown in postcondition".data.take 1 →
      "Call result type unknown in postcondition" ≠ p ++ s := by
    intro p s hp h heq
    have := append_ne_append_of_take p s "Call result type unknown in postcondition" "" 1
      hp (by decide) h
    exact this (by simpa using heq.symm)
  rintro (⟨y, h⟩ | ⟨n, _, _, h⟩ | ⟨n, h⟩ | ⟨i, n, h⟩ | h)
  · exact key _ _ (by decide) (by decide) h
  · exact key _ _ (by decide) (by decide) h
  · exact key _ _ (by decide) (by decide) h
  · rw [String.append_assoc, String.append_assoc] at h
    exact key _ _ (by decide) (by decide) h
  · revert h
    decide

/-- Claim C20.  The call of an API block is resolved through `functionEnv` only.  In a
spec that declares no function named `map_access` (resp. `equals`), a block whose call
has that name appends, between the diagnostics of its precondition and those of its
postcondition, `Undefined function: <name>` followed by
`Call result type unknown in postcondition`, whatever the arguments, and
`typeCheckSpec` returns false.  Inside an expression a call of that name is dispatched
to the built-in, and no expression ever appends either of the two entries. -/
theorem api_call_bypasses_builtins (tc : Typechecker) (spec : Spec) (b : API)
    (name : String) (hname : name = "map_access" ∨ name = "equals")
    (hdecl : ∀ d ∈ spec.functions, d.name ≠ name)
    (hb : b ∈ spec.blocks) (hcall : b.call.call.name = name) :
    (∀ l, checkAPIBlock { blockState spec with errs := l } b =
      { blockState spec with errs := l ++ (optDiags (blockState spec) b.pre ++
        ["Undefined function: " ++ name, "Call result type unknown in postcondition"] ++
        optDiags (blockState spec) b.response.expr) }) ∧
    (typeCheckSpec tc spec).1 = false ∧
    (∀ s args, typecheckExpr s (.FuncCall name args) =
      if name = "map_access" then typecheckMapAccess s args else typecheckBinExpr s args) ∧
    (∀ s e, ("Undefined function: " ++ name) ∉ exprDiags s e ∧
      "Call result type unknown in postcondition" ∉ exprDiags s e) := by
  have hfind : UnorderedMap.find (blockState spec).functionEnv name = none :=
    find_declaredFunctions_of_not_mem [] spec.functions name hdecl
  have hblock : blockDiags (blockState spec) b =
      optDiags (blockState spec) b.pre ++
        ["Undefined function: " ++ name, "Call result type unknown in postcondition"] ++
        optDiags (blockState spec) b.response.expr := by
    rw [blockDiags_eq, callDiags_eq, callType_eq, hcall, hfind]
    simp
  refine ⟨fun l => ?_, ?_, fun s args => ?_, fun s e => ⟨fun h => ?_, fun h => ?_⟩⟩
  · rw [checkAPIBlock_blockDiags]
    show (⟨_, _, _, l ++ blockDiags (blockState spec) b⟩ : Typechecker) = _
    rw [hblock]
  · have hmem : ("Undefined function: " ++ name) ∈ specDiags spec := by
      apply List.mem_append_right
      apply blockDiags_subset_blocksDiags _ _ b hb
      rw [hblock]
      simp
    rw [typeCheckSpec_eq]
    cases hs : specDiags spec with
    | nil => rw [hs] at hmem; cases hmem
    | cons x xs => rfl
  · rw [typecheckExpr_call]
    rcases hname with rfl | rfl
    · simp
    · simp
  · exact not_exprMsg_undefined_builtin name hname (exprDiags_exprMsg s e _ h)
  · exact not_exprMsg_call_result (exprDiags_exprMsg s e _ h)

/-- Claim C20, witness: the mock spec with the block call `map_access(U, uid)`, two
correctly typed arguments; the same call is part of the precondition of that block. -/
theorem api_call_bypasses_builtins_witness :
    checkAPIBlock mockState
        ⟨some (Expr.FuncCall "equals"
          [Expr.FuncCall "map_access" [.Var "U", .Var "uid"], .Var "NIL"]),
        ⟨⟨"map_access", [Expr.Var "U", Expr.Var "uid"]⟩,
          ⟨HTTPResponseCode.OK_200, some (.Var "OK")⟩⟩,
        ⟨HTTPResponseCode.OK_200, some (Expr.FuncCall "equals"
          [Expr.FuncCall "map_access" [.Var "U_prime", .Var "uid"], .Var "p"])⟩⟩ =
      { mockState with errs := ["Undefined function: map_access",
        "Call result type unknown in postcondition"] } ∧
    (typeCheckSpec Typechecker.new
      (mockSpecWith ⟨"map_access", [Expr.Var "U", Expr.Var "uid"]⟩
        (some (Expr.Var "OK")))).1 = false := by
  have h := api_call_bypasses_builtins Typechecker.new
    (mockSpecWith ⟨"map_access", [Expr.Var "U", Expr.Var "uid"]⟩ (some (Expr.Var "OK")))
    ⟨some (Expr.FuncCall "equals"
        [Expr.FuncCall "map_access" [.Var "U", .Var "uid"], .Var "NIL"]),
      ⟨⟨"map_access", [Expr.Var "U", Expr.Var "uid"]⟩,
        ⟨HTTPResponseCode.OK_200, some (.Var "OK")⟩⟩,
      ⟨HTTPResponseCode.OK_200, some (Expr.FuncCall "equals"
        [Expr.FuncCall "map_access" [.Var "U_prime", .Var "uid"], .Var "p"])⟩⟩
    "map_access" (Or.inl rfl)
    (by simp [mockSpecWith, createMockASTFromSampleAPI])
    (by simp [mockSpecWith, createMockASTFromSampleAPI]) rfl
  refine ⟨?_, h.2.1⟩
  have h1 := h.1 []
  rw [blockState_mockSpecWith] at h1
  rw [show mockState = { mockState with errs := [] } from rfl, h1]
  simp [optDiags, exprDiags_equals, exprDiags_mapAccess, exprType_mapAccess, exprDiags_var,
    exprType_var, mockState, standardEnv, UnorderedMap.find]

/-- Claim C19, witness: Scenario A is accepted, so the initialiser of `U_prime`, the
precondition and the call of its block were inferred with a type other than
`Unknown`. -/
theorem unknown_never_silent_witness :
    (typeCheckSpec Typechecker.new (createMockASTFromSampleAPI false)).1 = true ∧
    (typecheckExpr (collectGlobals Typechecker.new
        (createMockASTFromSampleAPI false).globals
        [Init.mk "uid" (.String "user123"), Init.mk "p" (.String "password"),
          Init.mk "NIL" (.String "")]) (Expr.Var "U")).1.kind ≠ TyKind.Unknown ∧
    (∀ b ∈ (createMockASTFromSampleAPI false).blocks,
      (checkCall { blockState (createMockASTFromSampleAPI false) with errs := [] }
        b.call).1.kind ≠ TyKind.Unknown) := by
  have htrue : (typeCheckSpec Typechecker.new (createMockASTFromSampleAPI false)).1 = true := by
    rw [typeCheckSpec_eq, specDiags_scenarioA]
    rfl
  have h := (unknown_never_silent Typechecker.new (createMockASTFromSampleAPI false)).2.2.2
    htrue
  exact ⟨htrue, h.1 [Init.mk "uid" (.String "user123"), Init.mk "p" (.String "password"),
      Init.mk "NIL" (.String "")] (Init.mk "U_prime" (.Var "U")) [] rfl,
    fun b hb => (h.2 b hb []).2.1⟩

end FrontEnd
